import Mathlib

/-!
# A verification development for the DNS responder `dns.go`

The program reads its configuration from the process environment
(`loadEnvVariables`, `getPorts`, `checkAddressMapping`), then serves DNS
queries through `handleRequest`, which answers from the global `addressMap`.

The embedding is shallow: every Go function of `dns.go` becomes a Lean
function of the same name.  The global `addressMap` is threaded explicitly,
the process environment is the list of strings `os.Environ()` returns, and a
call that may leave the function abnormally (`os.Exit`, a run-time panic)
returns an `Outcome`.

Functions of the Go standard library and of `github.com/miekg/dns` that
`dns.go` calls are given by their library semantics, each marked as such.
-/

namespace DNS

/-! ## Go values -/

/-- Go `string` values, as the sequence of their characters.  Every string
operation `dns.go` performs (splitting at `=`, tests against ASCII prefixes,
equality, ASCII digit tests) acts on the UTF-8 bytes exactly as it acts on the
characters. -/
abbrev GoString := List Char

/-- How a piece of the program ends: it returns a value, it calls
`os.Exit(status)` after printing `message`, or it panics. -/
inductive Outcome (α : Type) where
  | ok (value : α)
  | exit (status : Nat) (message : String)
  | panic (reason : String)
deriving DecidableEq, Repr

/-- Sequencing of program pieces: the first abnormal end is the end of the whole. -/
def Outcome.bind {α β : Type} (x : Outcome α) (f : α → Outcome β) : Outcome β :=
  match x with
  | .ok a => f a
  | .exit status message => .exit status message
  | .panic reason => .panic reason

/-- Library `strings.Split(s, sep)` for a one-character separator: the fields
of `s` between the occurrences of `sep`; always at least one field. -/
def Split (s : GoString) (sep : Char) : List GoString :=
  match s with
  | [] => [[]]
  | c :: cs =>
    if c = sep then [] :: Split cs sep
    else
      match Split cs sep with
      | [] => [[c]]
      | field :: fields => (c :: field) :: fields

/-- Library `strings.HasPrefix(s, p)`. -/
def HasPrefix (s p : GoString) : Bool := p.isPrefixOf s

/-- Library `strings.TrimPrefix(s, p)`: `s` without the leading `p`, or `s`
itself when it does not start with `p`. -/
def TrimPrefix (s p : GoString) : GoString :=
  if HasPrefix s p then s.drop p.length else s

/-- Library `os.LookupEnv(key)` over the environment strings: the text after
the first `=` of the first entry whose text before its first `=` is `key`.
Entries without `=` define no variable, and the empty key names none. -/
def LookupEnv : List GoString → GoString → Option GoString
  | [], _ => none
  | e :: rest, key =>
    if key ≠ [] ∧ '=' ∈ e ∧ e.takeWhile (fun c => c ≠ '=') = key then
      some ((e.dropWhile (fun c => c ≠ '=')).drop 1)
    else LookupEnv rest key

/-- Library `os.Getenv(key)`: the value of the variable, empty when unset. -/
def Getenv (environ : List GoString) (key : GoString) : GoString :=
  (LookupEnv environ key).getD []

/-- Library `strconv.Atoi` on a 64-bit platform: an optional sign followed by
one or more decimal digits, within the range of `int`; `none` is the error
return (syntax or range). -/
def Atoi (s : GoString) : Option Int :=
  let signed : Bool × GoString :=
    match s with
    | '-' :: r => (true, r)
    | '+' :: r => (false, r)
    | r => (false, r)
  let digits := signed.2
  if digits = [] ∨ ¬ digits.all Char.isDigit then none
  else
    let n : Nat := digits.foldl (fun acc c => acc * 10 + (c.toNat - 48)) 0
    if signed.1 then (if n ≤ 2 ^ 63 then some (-(n : Int)) else none)
    else (if n < 2 ^ 63 then some (n : Int) else none)

/-! ## The address table -/

/-- Go `map[string]string`, as the list of its assignments, newest first. -/
abbrev StringMap := List (GoString × GoString)

/-- Go `v, exists := m[k]`: `some v` when the key is present. -/
def mapIndex : StringMap → GoString → Option GoString
  | [], _ => none
  | (k, v) :: m, x => if x = k then some v else mapIndex m x

/-- Go `m[k] = v`. -/
def mapAssign (m : StringMap) (k v : GoString) : StringMap := (k, v) :: m

/-- The global `var addressMap = make(map[string]string)` at program start
(dns.go:16). -/
def addressMap : StringMap := []

/-! ## DNS messages (`github.com/miekg/dns`) -/

/-- Library `dns.Question`. -/
structure Question where
  Name : GoString
  Qtype : Nat
  Qclass : Nat
deriving DecidableEq, Repr

/-- Library `dns.RR_Header`. -/
structure RR_Header where
  Name : GoString
  Rrtype : Nat
  Class : Nat
  Ttl : Nat
  Rdlength : Nat
deriving DecidableEq, Repr

/-- Go `net.IP`: a byte slice; `nil` is the empty list. -/
abbrev IP := List Nat

/-- Library `dns.RR`: the `*dns.A` record the handler builds, and any other
record (header and raw data) a received message may carry. -/
inductive RR where
  | A (Hdr : RR_Header) (A : IP)
  | other (Hdr : RR_Header) (rdata : List Nat)
deriving DecidableEq, Repr

/-- Library `dns.MsgHdr`. -/
structure MsgHdr where
  Id : Nat
  Response : Bool
  Opcode : Nat
  Authoritative : Bool
  Truncated : Bool
  RecursionDesired : Bool
  RecursionAvailable : Bool
  Zero : Bool
  AuthenticatedData : Bool
  CheckingDisabled : Bool
  Rcode : Nat
deriving DecidableEq, Repr

/-- Library `dns.Msg`. -/
structure Msg extends MsgHdr where
  Compress : Bool
  Question : List Question
  Answer : List RR
  Ns : List RR
  Extra : List RR
deriving DecidableEq, Repr

/-- Go zero value `dns.Msg{}`. -/
def Msg.zero : Msg :=
  { Id := 0, Response := false, Opcode := 0, Authoritative := false,
    Truncated := false, RecursionDesired := false, RecursionAvailable := false,
    Zero := false, AuthenticatedData := false, CheckingDisabled := false,
    Rcode := 0, Compress := false, Question := [], Answer := [], Ns := [],
    Extra := [] }

/-- Library constant `dns.TypeA`. -/
def TypeA : Nat := 1
/-- Library constant `dns.TypeAAAA`. -/
def TypeAAAA : Nat := 28
/-- Library constant `dns.ClassINET`. -/
def ClassINET : Nat := 1
/-- Library constant `dns.OpcodeQuery`. -/
def OpcodeQuery : Nat := 0
/-- Library constant `dns.RcodeSuccess`. -/
def RcodeSuccess : Nat := 0

/-- Library `(*dns.Msg).SetReply(request)`: copies the id and the opcode, sets
the response bit, copies the RD and CD bits of a standard query, clears the
rcode, and takes over the FIRST question of the request (when it has one). -/
def SetReply (m request : Msg) : Msg :=
  let m := { m with Id := request.Id, Response := true, Opcode := request.Opcode }
  let m :=
    if m.Opcode = OpcodeQuery then
      { m with RecursionDesired := request.RecursionDesired,
               CheckingDisabled := request.CheckingDisabled }
    else m
  let m := { m with Rcode := RcodeSuccess }
  match request.Question with
  | [] => m
  | q :: _ => { m with Question := [q] }

/-! ## IP addresses (`net`) -/

/-- The loop of library `netip.parseIPv4Fields`: decimal octets without leading
zeros, each at most 255, separated by single dots, four in all.  `prev` is the
character before the current one (`none` at index 0). -/
def parseIPv4Fields (prev : Option Char) (s : GoString) (val digLen pos : Nat)
    (fields : List Nat) : Option (List Nat) :=
  match s with
  | [] => if pos < 3 then none else some (fields.set 3 (val % 256))
  | c :: rest =>
    if '0' ≤ c ∧ c ≤ '9' then
      if digLen = 1 ∧ val = 0 then none
      else if val * 10 + (c.toNat - '0'.toNat) > 255 then none
      else parseIPv4Fields (some c) rest (val * 10 + (c.toNat - '0'.toNat)) (digLen + 1) pos fields
    else if c = '.' then
      if prev = none ∨ rest = [] ∨ prev = some '.' then none
      else if pos = 3 then none
      else parseIPv4Fields (some c) rest 0 0 (pos + 1) (fields.set pos (val % 256))
    else none

/-- Library `net.IPv4(a, b, c, d)`: the 16-byte IPv4-in-IPv6 form. -/
def IPv4 (a b c d : Nat) : IP := [0, 0, 0, 0, 0, 0, 0, 0, 0, 0, 255, 255, a, b, c, d]

/-- Library `net.ParseIP` on a text whose first of `.`, `:`, `%` is a dot: the
four octets in 16-byte form, or `nil`. -/
def parseIPv4 (s : GoString) : IP :=
  match parseIPv4Fields none s 0 0 0 [0, 0, 0, 0] with
  | some [a, b, c, d] => IPv4 a b c d
  | _ => []

/-- Library `net.ParseIP(s)`: the first `.`, `:` or `%` of the text selects the
form.  The dotted form is `parseIPv4`; the colon form is the library's IPv6
reader, taken as the parameter `parseIPv6`; any other text gives `nil`. -/
def ParseIP (parseIPv6 : GoString → IP) (s : GoString) : IP :=
  match s.find? (fun c => c = '.' ∨ c = ':' ∨ c = '%') with
  | some '.' => parseIPv4 s
  | some ':' => parseIPv6 s
  | _ => []

/-- Library `net.IP.To4`: the 4-byte form of an IPv4 address, else `nil`. -/
def To4 (ip : IP) : IP :=
  if ip.length = 4 then ip
  else if ip.length = 16 ∧ (ip.take 10).all (fun b => b = 0) ∧ ip.get? 10 = some 255
      ∧ ip.get? 11 = some 255 then ip.drop 12
  else []

/-- Library `dns.packDataA`: the RDATA octets of an A record on the wire.  A
4- or 16-byte address is written as the four octets of `To4` (zero octets
when `To4` is `nil`), a `nil` address as no octets; other lengths fail. -/
def packDataA (a : IP) : Option (List Nat) :=
  if a.length = 4 ∨ a.length = 16 then
    some (if To4 a = [] then [0, 0, 0, 0] else To4 a)
  else if a.length = 0 then some []
  else none

/-! ## `dns.go` -/

/-- The loop of `loadEnvVariables` (dns.go:57-65). -/
def loadEnvVariables.harvest : List GoString → StringMap → Outcome StringMap
  | [], m => .ok m
  | env :: rest, m =>
    match Split env '=' with
    | [] => .panic "index out of range [0] with length 0"
    | key :: values =>
      if HasPrefix key "DNS_MAP".toList then
        let hostname := TrimPrefix key "DNS_MAP_".toList
        match values with
        | [] => .panic "index out of range [1] with length 1"
        | address :: _ => loadEnvVariables.harvest rest (mapAssign m hostname address)
      else loadEnvVariables.harvest rest m

/-- The block `loadEnvVariables` runs for each mandatory hostname
(dns.go:67-74 and dns.go:76-83). -/
def loadEnvVariables.ensure (environ : List GoString) (hostname : GoString)
    (message : String) (m : StringMap) : Outcome StringMap :=
  match mapIndex m hostname with
  | some _ => .ok m
  | none =>
    let defaultAddress := Getenv environ "DNS_DEFAULT_ADDRESS".toList
    if defaultAddress = [] then .exit 1 message
    else .ok (mapAssign m hostname defaultAddress)

/-- Source `loadEnvVariables` (dns.go:56-84), from the map `m` it finds. -/
def loadEnvVariables (environ : List GoString) (m : StringMap) : Outcome StringMap :=
  ((loadEnvVariables.harvest environ m).bind
    (loadEnvVariables.ensure environ "conntest.nintendowifi.net".toList
      "Mapping for conntest.nintendowifi.net not found and no default address set.")).bind
    (loadEnvVariables.ensure environ "account.nintendo.net".toList
      "Mapping for account.nintendo.net not found and no default address set.")

/-- Source `getPorts` (dns.go:86-127). -/
def getPorts (environ : List GoString) : Outcome (Int × Int) :=
  let udp : Outcome Int :=
    match LookupEnv environ "UDP_PORT".toList with
    | some port =>
      match Atoi port with
      | some n => .ok n
      | none => .exit 1 "Invalid UDP port"
    | none => .ok 0
  udp.bind fun udpPort =>
  let tcp : Outcome Int :=
    match LookupEnv environ "TCP_PORT".toList with
    | some port =>
      match Atoi port with
      | some n => .ok n
      | none => .exit 1 "Invalid TCP port"
    | none => .ok 0
  tcp.bind fun tcpPort =>
  if udpPort = 0 ∧ tcpPort = 0 then
    .exit 1 "No server port set. Set one of UDP_PORT or TCP_PORT"
  else if udpPort = tcpPort then .exit 1 "UDP and TCP ports cannot match"
  else .ok (udpPort, tcpPort)

/-- Source `checkAddressMapping` (dns.go:129-139). -/
def checkAddressMapping (m : StringMap) : Outcome Unit :=
  match mapIndex m "conntest.nintendowifi.net".toList with
  | none => .exit 1 "Mapping for conntest.nintendowifi.net not found"
  | some _ =>
    match mapIndex m "account.nintendo.net".toList with
    | none => .exit 1 "Mapping for account.nintendo.net not found"
    | some _ => .ok ()

/-- Source `handleRequest` (dns.go:141-160) with the address table `m`: the
value is the list of messages passed to `w.WriteMsg`. -/
def handleRequest (parseIPv6 : GoString → IP) (m : StringMap) (r : Msg) :
    Outcome (List Msg) :=
  match r.Question with
  | [] => .panic "index out of range [0] with length 0"
  | question :: _ =>
    let name := question.Name
    match mapIndex m name with
    | some address =>
      let response := SetReply Msg.zero r
      let response :=
        { response with
          Answer := response.Answer ++
            [RR.A { Name := name, Rrtype := TypeA, Class := ClassINET, Ttl := 300,
                    Rdlength := 0 }
                  (ParseIP parseIPv6 address)] }
      .ok [response]
    | none => .ok []

/-- A `dns.Server` value as `main` builds it: the port of `Addr` and `Net`. -/
structure Server where
  Port : Int
  Net : String
deriving DecidableEq, Repr

/-- The process once `main` has launched its listeners: the servers whose
`ListenAndServe` was started and the address table their handler reads. -/
structure Running where
  servers : List Server
  table : StringMap
deriving DecidableEq, Repr

/-- Source `main` (dns.go:18-54): configuration, then the UDP server, then the
TCP server when its port is non-zero.  Every `os.Exit` of the configuration
steps precedes the construction of the first server.  The closing call of
`printServerInfo` only prints and is left out. -/
def main (environ : List GoString) : Outcome Running :=
  (loadEnvVariables environ addressMap).bind fun m =>
  (getPorts environ).bind fun ports =>
  (checkAddressMapping m).bind fun _ =>
  let udp : List Server := [{ Port := ports.1, Net := "udp" }]
  let tcp : List Server := if ports.2 ≠ 0 then [{ Port := ports.2, Net := "tcp" }] else []
  .ok { servers := udp ++ tcp, table := m }

/-! ## Vocabulary of the statements -/

/-- The variable name of an environment string: the text before its first `=`. -/
def envKey (e : GoString) : GoString := e.takeWhile (fun c => c ≠ '=')

/-- The text of an environment string between its first and its second `=`
(up to the end when there is no second one). -/
def envField (e : GoString) : GoString :=
  ((e.dropWhile (fun c => c ≠ '=')).drop 1).takeWhile (fun c => c ≠ '=')

/-- The two mandatory hostnames. -/
def mandatoryHostnames : List GoString :=
  ["conntest.nintendowifi.net".toList, "account.nintendo.net".toList]

/-- The name `DNS_MAP_<h>` of the variable that maps hostname `h`. -/
def dnsMapKey (h : GoString) : GoString := "DNS_MAP_".toList ++ h

/-- The environment string `KEY=VALUE`. -/
def envEntry (key value : GoString) : GoString := key ++ '=' :: value

/-- An environment string contributes an assignment for hostname `h` in the
loop of `loadEnvVariables`. -/
def harvests (e h : GoString) : Prop :=
  HasPrefix (envKey e) "DNS_MAP".toList = true ∧ TrimPrefix (envKey e) "DNS_MAP_".toList = h

/-- One ASCII decimal digit. -/
def digitChar (n : Nat) : Char := Char.ofNat (48 + n)

/-- The decimal text of an octet, without leading zeros. -/
def octetText (n : Nat) : GoString :=
  if n < 10 then [digitChar n]
  else if n < 100 then [digitChar (n / 10), digitChar (n % 10)]
  else [digitChar (n / 100), digitChar (n / 10 % 10), digitChar (n % 10)]

/-- The dotted-quad text `a.b.c.d`. -/
def dottedQuad (a b c d : Nat) : GoString :=
  octetText a ++ '.' :: (octetText b ++ '.' :: (octetText c ++ '.' :: octetText d))

/-- A query message with the given id and questions and nothing else set. -/
def query (id : Nat) (questions : List Question) : Msg :=
  { Msg.zero with Id := id, Question := questions }

/-- The environment of the first concrete scenario. -/
def scenarioEnv : List GoString :=
  ["UDP_PORT=5300".toList,
   "DNS_MAP_conntest.nintendowifi.net=10.0.0.1".toList,
   "DNS_MAP_account.nintendo.net=10.0.0.2".toList]

/-- The address table `loadEnvVariables` builds from `scenarioEnv`. -/
def scenarioTable : StringMap :=
  [("account.nintendo.net".toList, "10.0.0.2".toList),
   ("conntest.nintendowifi.net".toList, "10.0.0.1".toList)]

/-- An environment that sets `DNS_MAP_account.nintendo.net` to `y` and the
default address to `10.0.0.9`. -/
def explicitEnv (y : GoString) : List GoString :=
  ["UDP_PORT=5300".toList,
   envEntry (dnsMapKey "account.nintendo.net".toList) y,
   "DNS_DEFAULT_ADDRESS=10.0.0.9".toList]

/-- A decimal integer text: an optional sign followed by one or more ASCII
decimal digits. -/
def isDecimalInteger (s : GoString) : Bool :=
  match s with
  | '-' :: r => !r.isEmpty && r.all Char.isDigit
  | '+' :: r => !r.isEmpty && r.all Char.isDigit
  | r => !r.isEmpty && r.all Char.isDigit

/-- The port a variable yields in `getPorts`: 0 when the variable is absent,
the integer `strconv.Atoi` reads when it is present, `none` when that fails. -/
def portValue (environ : List GoString) (key : GoString) : Option Int :=
  match LookupEnv environ key with
  | none => some 0
  | some port => Atoi port

/-- An environment that sets `TCP_PORT` and both mandatory mappings, and
leaves `UDP_PORT` unset. -/
def tcpOnlyEnv : List GoString :=
  ["TCP_PORT=5301".toList,
   "DNS_MAP_conntest.nintendowifi.net=10.0.0.1".toList,
   "DNS_MAP_account.nintendo.net=10.0.0.2".toList]

/-- An environment whose mapping for `conntest.nintendowifi.net` is no address. -/
def badAddressEnv : List GoString :=
  ["UDP_PORT=5300".toList,
   "DNS_MAP_conntest.nintendowifi.net=not-an-ip".toList,
   "DNS_MAP_account.nintendo.net=10.0.0.2".toList]

/-- An environment with two variables whose names start with `DNS_MAP` but not
with `DNS_MAP_`. -/
def looseKeyEnv : List GoString :=
  ["DNS_MAPX=1.2.3.4".toList, "DNS_MAP=5.6.7.8".toList,
   "DNS_DEFAULT_ADDRESS=10.0.0.9".toList]

/-! ## Lemmas on the library functions -/

theorem Split_eq (s : GoString) (sep : Char) :
    Split s sep = s.takeWhile (fun c => c ≠ sep) ::
      (if sep ∈ s then Split ((s.dropWhile (fun c => c ≠ sep)).drop 1) sep else []) := by
  induction s with
  | nil => simp [Split]
  | cons c cs ih =>
    by_cases h : c = sep
    · subst h
      simp [Split]
    · have h2 : ¬ sep = c := fun h3 => h h3.symm
      rw [Split, if_neg h, ih]
      simp [h, h2]

theorem Split_of_not_mem (s : GoString) (sep : Char) (h : sep ∉ s) : Split s sep = [s] := by
  rw [Split_eq, if_neg h]
  congr 1
  rw [List.takeWhile_eq_self_iff]
  intro c hc
  have : c ≠ sep := fun h2 => h (h2 ▸ hc)
  simpa using this

/-! ## Lemmas on the loader -/

theorem harvest_cons (e : GoString) (rest : List GoString) (m : StringMap) (he : '=' ∈ e) :
    loadEnvVariables.harvest (e :: rest) m =
      if HasPrefix (envKey e) "DNS_MAP".toList = true then
        loadEnvVariables.harvest rest
          (mapAssign m (TrimPrefix (envKey e) "DNS_MAP_".toList) (envField e))
      else loadEnvVariables.harvest rest m := by
  rw [loadEnvVariables.harvest, Split_eq e '=', if_pos he,
    Split_eq ((e.dropWhile (fun c => c ≠ '=')).drop 1) '=']
  rfl

theorem harvest_ok (environ : List GoString) (hwf : ∀ e ∈ environ, '=' ∈ e) :
    ∀ m : StringMap, ∃ t, loadEnvVariables.harvest environ m = .ok t := by
  induction environ with
  | nil => intro m; exact ⟨m, rfl⟩
  | cons e rest ih =>
    intro m
    have he : '=' ∈ e := hwf e (List.mem_cons_self _ _)
    have hrest : ∀ e ∈ rest, '=' ∈ e := fun x hx => hwf x (List.mem_cons_of_mem _ hx)
    rw [harvest_cons e rest m he]
    split
    · exact ih hrest _
    · exact ih hrest _

theorem mapIndex_assign (m : StringMap) (k v x : GoString) :
    mapIndex (mapAssign m k v) x = if x = k then some v else mapIndex m x := rfl

/-- The table after the loop holds hostname `h` exactly when the table before
did or some environment string contributes an assignment for `h`. -/
theorem harvest_isSome (environ : List GoString) (hwf : ∀ e ∈ environ, '=' ∈ e) (h : GoString) :
    ∀ m t : StringMap, loadEnvVariables.harvest environ m = .ok t →
      (mapIndex t h = none ↔ mapIndex m h = none ∧ ∀ e ∈ environ, ¬ harvests e h) := by
  induction environ with
  | nil =>
    intro m t ht
    simp only [loadEnvVariables.harvest, Outcome.ok.injEq] at ht
    subst ht
    simp
  | cons e rest ih =>
    intro m t ht
    have he : '=' ∈ e := hwf e (List.mem_cons_self _ _)
    have hrest : ∀ e ∈ rest, '=' ∈ e := fun x hx => hwf x (List.mem_cons_of_mem _ hx)
    rw [harvest_cons e rest m he] at ht
    by_cases hp : HasPrefix (envKey e) "DNS_MAP".toList = true
    · rw [if_pos hp] at ht
      rw [ih hrest _ t ht, mapIndex_assign]
      by_cases hk : h = TrimPrefix (envKey e) "DNS_MAP_".toList
      · have hh : harvests e h := ⟨hp, hk.symm⟩
        simp only [if_pos hk, List.mem_cons, forall_eq_or_imp]
        constructor
        · intro h1; exact absurd h1.1 (by simp)
        · intro h1; exact absurd hh h1.2.1
      · have hh : ¬ harvests e h := fun h2 => hk h2.2.symm
        simp only [if_neg hk, List.mem_cons, forall_eq_or_imp]
        tauto
    · rw [if_neg hp] at ht
      rw [ih hrest _ t ht]
      have hh : ¬ harvests e h := fun h2 => hp h2.1
      simp only [List.mem_cons, forall_eq_or_imp]
      tauto

/-- The table after the loop maps `h` to `y` when the table before did or some
string contributes an assignment for `h`, and every contributing string
carries the value field `y`. -/
theorem harvest_value (environ : List GoString) (hwf : ∀ e ∈ environ, '=' ∈ e) (h y : GoString)
    (hval : ∀ e ∈ environ, harvests e h → envField e = y) :
    ∀ m t : StringMap, loadEnvVariables.harvest environ m = .ok t →
      (mapIndex m h = some y ∨ ∃ e ∈ environ, harvests e h) → mapIndex t h = some y := by
  induction environ with
  | nil =>
    intro m t ht hsrc
    simp only [loadEnvVariables.harvest, Outcome.ok.injEq] at ht
    subst ht
    simpa using hsrc
  | cons e rest ih =>
    intro m t ht hsrc
    have he : '=' ∈ e := hwf e (List.mem_cons_self _ _)
    have hrest : ∀ e ∈ rest, '=' ∈ e := fun x hx => hwf x (List.mem_cons_of_mem _ hx)
    have hvalrest : ∀ e ∈ rest, harvests e h → envField e = y :=
      fun x hx => hval x (List.mem_cons_of_mem _ hx)
    rw [harvest_cons e rest m he] at ht
    by_cases hp : HasPrefix (envKey e) "DNS_MAP".toList = true
    · rw [if_pos hp] at ht
      apply ih hrest hvalrest _ t ht
      rw [mapIndex_assign]
      by_cases hk : h = TrimPrefix (envKey e) "DNS_MAP_".toList
      · left
        rw [if_pos hk, hval e (List.mem_cons_self _ _) ⟨hp, hk.symm⟩]
      · rw [if_neg hk]
        rcases hsrc with h1 | ⟨x, hx, hxh⟩
        · exact Or.inl h1
        · rcases List.mem_cons.1 hx with rfl | hx2
          · exact absurd hxh.2.symm hk
          · exact Or.inr ⟨x, hx2, hxh⟩
    · rw [if_neg hp] at ht
      apply ih hrest hvalrest _ t ht
      rcases hsrc with h1 | ⟨x, hx, hxh⟩
      · exact Or.inl h1
      · rcases List.mem_cons.1 hx with rfl | hx2
        · exact absurd hxh.1 hp
        · exact Or.inr ⟨x, hx2, hxh⟩

/-- The loop of the loader never drops a key the table already maps, unless a
string of the environment reassigns it. -/
theorem harvest_keeps (environ : List GoString) (hwf : ∀ e ∈ environ, '=' ∈ e) (h v : GoString)
    (hno : ∀ e ∈ environ, ¬ harvests e h) :
    ∀ m t : StringMap, loadEnvVariables.harvest environ m = .ok t →
      mapIndex m h = some v → mapIndex t h = some v := by
  intro m t ht hm
  exact harvest_value environ hwf h v (fun e he hh => absurd hh (hno e he)) m t ht (Or.inl hm)

theorem HasPrefix_eq_append (s p : GoString) (h : HasPrefix s p = true) :
    s = p ++ s.drop p.length := by
  have h1 : p <+: s := List.isPrefixOf_iff_prefix.1 h
  exact (List.prefix_iff_eq_append.1 h1).symm

/-- For a mandatory hostname only the variable `DNS_MAP_<h>` contributes. -/
theorem harvests_mandatory (e h : GoString) (hh : h ∈ mandatoryHostnames) :
    harvests e h ↔ envKey e = dnsMapKey h := by
  constructor
  · rintro ⟨h1, h2⟩
    unfold TrimPrefix at h2
    by_cases hp : HasPrefix (envKey e) "DNS_MAP_".toList = true
    · rw [if_pos hp] at h2
      have h3 := HasPrefix_eq_append _ _ hp
      rw [h2] at h3
      exact h3
    · rw [if_neg hp] at h2
      rw [h2] at h1
      simp only [mandatoryHostnames, List.mem_cons, List.mem_singleton, List.not_mem_nil,
        or_false] at hh
      rcases hh with rfl | rfl
      · exact absurd h1 (by decide)
      · exact absurd h1 (by decide)
  · intro hk
    unfold harvests
    rw [hk]
    simp only [mandatoryHostnames, List.mem_cons, List.mem_singleton, List.not_mem_nil,
      or_false] at hh
    rcases hh with rfl | rfl
    · exact ⟨by decide, by decide⟩
    · exact ⟨by decide, by decide⟩

theorem takeWhile_envEntry (k v : GoString) (hk : '=' ∉ k) :
    (envEntry k v).takeWhile (fun c => c ≠ '=') = k := by
  induction k with
  | nil => simp [envEntry]
  | cons c cs ih =>
    have hc : c ≠ '=' := fun h => hk (h ▸ List.mem_cons_self _ _)
    have hcs : '=' ∉ cs := fun h => hk (List.mem_cons_of_mem _ h)
    have := ih hcs
    simp only [envEntry, List.cons_append] at this ⊢
    rw [List.takeWhile_cons, if_pos (by simpa using hc), this]

theorem dropWhile_envEntry (k v : GoString) (hk : '=' ∉ k) :
    (envEntry k v).dropWhile (fun c => c ≠ '=') = '=' :: v := by
  induction k with
  | nil => simp [envEntry]
  | cons c cs ih =>
    have hc : c ≠ '=' := fun h => hk (h ▸ List.mem_cons_self _ _)
    have hcs : '=' ∉ cs := fun h => hk (List.mem_cons_of_mem _ h)
    have := ih hcs
    simp only [envEntry, List.cons_append] at this ⊢
    rw [List.dropWhile_cons, if_pos (by simpa using hc), this]

theorem envKey_envEntry (k v : GoString) (hk : '=' ∉ k) : envKey (envEntry k v) = k :=
  takeWhile_envEntry k v hk

theorem envField_envEntry (k v : GoString) (hk : '=' ∉ k) (hv : '=' ∉ v) :
    envField (envEntry k v) = v := by
  unfold envField
  rw [dropWhile_envEntry k v hk, List.drop_one, List.tail_cons, List.takeWhile_eq_self_iff]
  intro c hc
  have : c ≠ '=' := fun h2 => hv (h2 ▸ hc)
  simpa using this

theorem dnsMapKey_no_eq (h : GoString) (hh : h ∈ mandatoryHostnames) : '=' ∉ dnsMapKey h := by
  simp only [mandatoryHostnames, List.mem_cons, List.mem_singleton, List.not_mem_nil,
    or_false] at hh
  rcases hh with rfl | rfl <;> decide

theorem ensure_of_some (environ : List GoString) (h : GoString) (msg : String) (m : StringMap)
    (v : GoString) (hm : mapIndex m h = some v) :
    loadEnvVariables.ensure environ h msg m = .ok m := by
  simp [loadEnvVariables.ensure, hm]

theorem ensure_of_none (environ : List GoString) (h : GoString) (msg : String) (m : StringMap)
    (hm : mapIndex m h = none) :
    loadEnvVariables.ensure environ h msg m =
      if Getenv environ "DNS_DEFAULT_ADDRESS".toList = [] then .exit 1 msg
      else .ok (mapAssign m h (Getenv environ "DNS_DEFAULT_ADDRESS".toList)) := by
  simp [loadEnvVariables.ensure, hm]

/-- A successful mandatory-hostname block keeps every entry of the table and
leaves `h` mapped; a hostname that was mapped keeps its value. -/
theorem ensure_keeps (environ : List GoString) (h : GoString) (msg : String) (m t : StringMap)
    (ht : loadEnvVariables.ensure environ h msg m = .ok t) :
    ∀ k v, mapIndex m k = some v → mapIndex t k = some v := by
  intro k v hkv
  cases hm : mapIndex m h with
  | some w =>
    rw [ensure_of_some environ h msg m w hm] at ht
    cases ht
    exact hkv
  | none =>
    rw [ensure_of_none environ h msg m hm] at ht
    split at ht
    · cases ht
    · cases ht
      rw [mapIndex_assign]
      have : k ≠ h := fun hk => by rw [hk, hm] at hkv; cases hkv
      rw [if_neg this]
      exact hkv

/-- With a non-empty default address the mandatory-hostname block succeeds,
and a hostname that was missing is mapped to the default. -/
theorem ensure_default (environ : List GoString) (h : GoString) (msg : String) (m : StringMap)
    (hd : Getenv environ "DNS_DEFAULT_ADDRESS".toList ≠ []) :
    ∃ t, loadEnvVariables.ensure environ h msg m = .ok t ∧
      (mapIndex m h = none →
        mapIndex t h = some (Getenv environ "DNS_DEFAULT_ADDRESS".toList)) := by
  cases hm : mapIndex m h with
  | some w => exact ⟨m, ensure_of_some environ h msg m w hm, fun h2 => by cases h2⟩
  | none =>
    refine ⟨mapAssign m h (Getenv environ "DNS_DEFAULT_ADDRESS".toList), ?_, ?_⟩
    · rw [ensure_of_none environ h msg m hm, if_neg hd]
    · intro _
      rw [mapIndex_assign, if_pos rfl]

theorem loadEnvVariables_of_harvest (environ : List GoString) (m t0 : StringMap)
    (h0 : loadEnvVariables.harvest environ m = .ok t0) :
    loadEnvVariables environ m =
      (loadEnvVariables.ensure environ "conntest.nintendowifi.net".toList
        "Mapping for conntest.nintendowifi.net not found and no default address set." t0).bind
      (loadEnvVariables.ensure environ "account.nintendo.net".toList
        "Mapping for account.nintendo.net not found and no default address set.") := by
  rw [loadEnvVariables, h0]
  rfl

theorem getenv_nil_iff (environ : List GoString) (key : GoString) :
    Getenv environ key = [] ↔ ∀ x, LookupEnv environ key = some x → x = [] := by
  unfold Getenv
  cases LookupEnv environ key with
  | none => simp
  | some v => simp

/-- After the loop of the loader on the initial table, a mandatory hostname
is missing exactly when the environment has no variable `DNS_MAP_<h>`. -/
theorem harvest_mandatory_none (environ : List GoString) (hwf : ∀ e ∈ environ, '=' ∈ e)
    (t0 : StringMap) (h0 : loadEnvVariables.harvest environ addressMap = .ok t0)
    (h : GoString) (hh : h ∈ mandatoryHostnames) :
    mapIndex t0 h = none ↔ ∀ e ∈ environ, envKey e ≠ dnsMapKey h := by
  rw [harvest_isSome environ hwf h addressMap t0 h0]
  constructor
  · intro h1 e he hk
    exact h1.2 e he ((harvests_mandatory e h hh).2 hk)
  · intro h1
    exact ⟨rfl, fun e he hv => h1 e he ((harvests_mandatory e h hh).1 hv)⟩

/-! ## The loop of the loader on arbitrary environment strings -/

/-- One turn of the loop, for any string: a string whose key part starts with
`DNS_MAP` contributes an assignment when it contains `=` and makes the loop
panic when it does not; any other string is skipped. -/
theorem harvest_step (e : GoString) (rest : List GoString) (m : StringMap) :
    loadEnvVariables.harvest (e :: rest) m =
      if HasPrefix (envKey e) "DNS_MAP".toList = true then
        if '=' ∈ e then
          loadEnvVariables.harvest rest
            (mapAssign m (TrimPrefix (envKey e) "DNS_MAP_".toList) (envField e))
        else .panic "index out of range [1] with length 1"
      else loadEnvVariables.harvest rest m := by
  by_cases he : '=' ∈ e
  · rw [harvest_cons e rest m he, if_pos he]
  · rw [loadEnvVariables.harvest, Split_eq e '=', if_neg he, if_neg he]
    rfl

theorem harvest_ok_of_safe (environ : List GoString)
    (hsafe : ∀ e ∈ environ, HasPrefix (envKey e) "DNS_MAP".toList = true → '=' ∈ e) :
    ∀ m : StringMap, ∃ t, loadEnvVariables.harvest environ m = .ok t := by
  induction environ with
  | nil => intro m; exact ⟨m, rfl⟩
  | cons e rest ih =>
    intro m
    have hrest : ∀ x ∈ rest, HasPrefix (envKey x) "DNS_MAP".toList = true → '=' ∈ x :=
      fun x hx => hsafe x (List.mem_cons_of_mem _ hx)
    rw [harvest_step e rest m]
    by_cases hp : HasPrefix (envKey e) "DNS_MAP".toList = true
    · rw [if_pos hp, if_pos (hsafe e (List.mem_cons_self _ _) hp)]
      exact ih hrest _
    · rw [if_neg hp]
      exact ih hrest _

/-- The loop of the loader never calls `os.Exit`. -/
theorem harvest_not_exit (environ : List GoString) :
    ∀ (m : StringMap) (status : Nat) (message : String),
      loadEnvVariables.harvest environ m ≠ .exit status message := by
  induction environ with
  | nil => intro m status message h; cases h
  | cons e rest ih =>
    intro m status message
    rw [harvest_step e rest m]
    by_cases hp : HasPrefix (envKey e) "DNS_MAP".toList = true
    · rw [if_pos hp]
      by_cases he : '=' ∈ e
      · rw [if_pos he]
        exact ih _ status message
      · rw [if_neg he]
        intro h; cases h
    · rw [if_neg hp]
      exact ih _ status message

/-- Whenever the loop returns, on any list of strings, the table holds
hostname `h` exactly when the table before did or some string contributes an
assignment for `h`. -/
theorem harvest_isSome_of_ok (environ : List GoString) (h : GoString) :
    ∀ m t : StringMap, loadEnvVariables.harvest environ m = .ok t →
      (mapIndex t h = none ↔ mapIndex m h = none ∧ ∀ e ∈ environ, ¬ harvests e h) := by
  induction environ with
  | nil =>
    intro m t ht
    simp only [loadEnvVariables.harvest, Outcome.ok.injEq] at ht
    subst ht
    simp
  | cons e rest ih =>
    intro m t ht
    rw [harvest_step e rest m] at ht
    by_cases hp : HasPrefix (envKey e) "DNS_MAP".toList = true
    · rw [if_pos hp] at ht
      by_cases he : '=' ∈ e
      · rw [if_pos he] at ht
        rw [ih _ t ht, mapIndex_assign]
        by_cases hk : h = TrimPrefix (envKey e) "DNS_MAP_".toList
        · have hh : harvests e h := ⟨hp, hk.symm⟩
          simp only [if_pos hk, List.mem_cons, forall_eq_or_imp]
          constructor
          · intro h1; exact absurd h1.1 (by simp)
          · intro h1; exact absurd hh h1.2.1
        · have hh : ¬ harvests e h := fun h2 => hk h2.2.symm
          simp only [if_neg hk, List.mem_cons, forall_eq_or_imp]
          tauto
      · rw [if_neg he] at ht
        cases ht
    · rw [if_neg hp] at ht
      rw [ih _ t ht]
      have hh : ¬ harvests e h := fun h2 => hp h2.1
      simp only [List.mem_cons, forall_eq_or_imp]
      tauto

/-- Whenever the loop returns, on any list of strings, the table maps `h` to
`y` provided the table before did or some string contributes an assignment for
`h`, and every contributing string carries the value field `y`. -/
theorem harvest_value_of_ok (environ : List GoString) (h y : GoString)
    (hval : ∀ e ∈ environ, harvests e h → envField e = y) :
    ∀ m t : StringMap, loadEnvVariables.harvest environ m = .ok t →
      (mapIndex m h = some y ∨ ∃ e ∈ environ, harvests e h) → mapIndex t h = some y := by
  induction environ with
  | nil =>
    intro m t ht hsrc
    simp only [loadEnvVariables.harvest, Outcome.ok.injEq] at ht
    subst ht
    simpa using hsrc
  | cons e rest ih =>
    intro m t ht hsrc
    have hvalrest : ∀ e ∈ rest, harvests e h → envField e = y :=
      fun x hx => hval x (List.mem_cons_of_mem _ hx)
    rw [harvest_step e rest m] at ht
    by_cases hp : HasPrefix (envKey e) "DNS_MAP".toList = true
    · rw [if_pos hp] at ht
      by_cases he : '=' ∈ e
      · rw [if_pos he] at ht
        apply ih hvalrest _ t ht
        rw [mapIndex_assign]
        by_cases hk : h = TrimPrefix (envKey e) "DNS_MAP_".toList
        · left
          rw [if_pos hk, hval e (List.mem_cons_self _ _) ⟨hp, hk.symm⟩]
        · rw [if_neg hk]
          rcases hsrc with h1 | ⟨x, hx, hxh⟩
          · exact Or.inl h1
          · rcases List.mem_cons.1 hx with rfl | hx2
            · exact absurd hxh.2.symm hk
            · exact Or.inr ⟨x, hx2, hxh⟩
      · rw [if_neg he] at ht
        cases ht
    · rw [if_neg hp] at ht
      apply ih hvalrest _ t ht
      rcases hsrc with h1 | ⟨x, hx, hxh⟩
      · exact Or.inl h1
      · rcases List.mem_cons.1 hx with rfl | hx2
        · exact absurd hxh.1 hp
        · exact Or.inr ⟨x, hx2, hxh⟩

/-- Whenever the loop returns from the initial table, on any list of strings, a
mandatory hostname is missing exactly when no string has the key
`DNS_MAP_<h>`. -/
theorem harvest_mandatory_none_of_ok (environ : List GoString) (t0 : StringMap)
    (h0 : loadEnvVariables.harvest environ addressMap = .ok t0)
    (h : GoString) (hh : h ∈ mandatoryHostnames) :
    mapIndex t0 h = none ↔ ∀ e ∈ environ, envKey e ≠ dnsMapKey h := by
  rw [harvest_isSome_of_ok environ h addressMap t0 h0]
  constructor
  · intro h1 e he hk
    exact h1.2 e he ((harvests_mandatory e h hh).2 hk)
  · intro h1
    exact ⟨rfl, fun e he hv => h1 e he ((harvests_mandatory e h hh).1 hv)⟩

/-- A load that returns a table went through its loop. -/
theorem harvest_of_load (environ : List GoString) (m t : StringMap)
    (h : loadEnvVariables environ m = .ok t) :
    ∃ t0, loadEnvVariables.harvest environ m = .ok t0 := by
  unfold loadEnvVariables at h
  cases h0 : loadEnvVariables.harvest environ m with
  | ok t0 => exact ⟨t0, rfl⟩
  | exit s msg => simp only [Outcome.bind, h0] at h; cases h
  | panic r => simp only [Outcome.bind, h0] at h; cases h

/-! ## The loader: mandatory hostnames and the default address -/

/-- Claim C7.  For every environment whose entries have the form KEY=VALUE,
`loadEnvVariables` ends in `os.Exit` with a non-zero status if and only if
some mandatory hostname `h` has no variable `DNS_MAP_<h>` while
`DNS_DEFAULT_ADDRESS` is not set to a non-empty value; and then `main` ends
with that same exit, before it builds any server. -/
theorem mandatory_name_abort (environ : List GoString) (hwf : ∀ e ∈ environ, '=' ∈ e) :
    ((∃ status message, status ≠ 0 ∧
        loadEnvVariables environ addressMap = .exit status message) ↔
      ∃ h ∈ mandatoryHostnames, (∀ e ∈ environ, envKey e ≠ dnsMapKey h) ∧
        ∀ x, LookupEnv environ "DNS_DEFAULT_ADDRESS".toList = some x → x = []) ∧
    (∀ status message, loadEnvVariables environ addressMap = .exit status message →
      main environ = .exit status message) := by
  refine ⟨?_, ?_⟩
  · obtain ⟨t0, h0⟩ := harvest_ok environ hwf addressMap
    have hc := harvest_mandatory_none environ hwf t0 h0 "conntest.nintendowifi.net".toList
      (by simp [mandatoryHostnames])
    have ha := harvest_mandatory_none environ hwf t0 h0 "account.nintendo.net".toList
      (by simp [mandatoryHostnames])
    rw [loadEnvVariables_of_harvest environ addressMap t0 h0]
    simp only [mandatoryHostnames, List.mem_cons, List.mem_singleton, List.not_mem_nil,
      or_false, exists_eq_or_imp, exists_eq_left, ← getenv_nil_iff, ← hc, ← ha]
    by_cases hd : Getenv environ "DNS_DEFAULT_ADDRESS".toList = []
    · cases h1 : mapIndex t0 "conntest.nintendowifi.net".toList with
      | none =>
        rw [ensure_of_none environ _ _ t0 h1, if_pos hd]
        simp only [Outcome.bind, hd, and_self, true_or, iff_true]
        exact ⟨1, _, by decide, rfl⟩
      | some w =>
        rw [ensure_of_some environ _ _ t0 w h1]
        simp only [Outcome.bind]
        cases h2 : mapIndex t0 "account.nintendo.net".toList with
        | none =>
          rw [ensure_of_none environ _ _ t0 h2, if_pos hd]
          simp only [hd, and_self, or_true, iff_true]
          exact ⟨1, _, by decide, rfl⟩
        | some w2 =>
          rw [ensure_of_some environ _ _ t0 w2 h2]
          simp
    · obtain ⟨t1, ht1, -⟩ := ensure_default environ "conntest.nintendowifi.net".toList
        "Mapping for conntest.nintendowifi.net not found and no default address set." t0 hd
      obtain ⟨t2, ht2, -⟩ := ensure_default environ "account.nintendo.net".toList
        "Mapping for account.nintendo.net not found and no default address set." t1 hd
      rw [ht1]
      simp only [Outcome.bind, ht2, hd, and_false, or_self, iff_false]
      rintro ⟨_, _, _, h3⟩
      cases h3
  · intro status message h1
    rw [main, h1]
    rfl

/-- Witness of C7: with only `UDP_PORT` set, the loader exits non-zero. -/
theorem mandatory_name_abort_witness :
    ∃ status message, status ≠ 0 ∧
      loadEnvVariables ["UDP_PORT=5300".toList] addressMap = .exit status message :=
  (mandatory_name_abort ["UDP_PORT=5300".toList] (by decide)).1.2
    ⟨"conntest.nintendowifi.net".toList, by decide, by decide, by decide⟩

/-- Default fill on every environment whose strings with a key part starting
with `DNS_MAP` all contain `=` (the loop of the loader gets through exactly
these): for each mandatory hostname `h` without a variable `DNS_MAP_<h>`, and
`DNS_DEFAULT_ADDRESS` set to a non-empty `x`, the load succeeds, the table
maps `h` to `x`, and every harvested entry is still mapped to the same value. -/
theorem default_fill_of_safe (environ : List GoString) (h x : GoString)
    (hsafe : ∀ e ∈ environ, HasPrefix (envKey e) "DNS_MAP".toList = true → '=' ∈ e)
    (hh : h ∈ mandatoryHostnames)
    (hno : ∀ e ∈ environ, envKey e ≠ dnsMapKey h)
    (hx : LookupEnv environ "DNS_DEFAULT_ADDRESS".toList = some x) (hne : x ≠ []) :
    ∃ t0 t, loadEnvVariables.harvest environ addressMap = .ok t0 ∧
      loadEnvVariables environ addressMap = .ok t ∧
      mapIndex t h = some x ∧
      ∀ k v, mapIndex t0 k = some v → mapIndex t k = some v := by
  obtain ⟨t0, h0⟩ := harvest_ok_of_safe environ hsafe addressMap
  have hd : Getenv environ "DNS_DEFAULT_ADDRESS".toList = x := by rw [Getenv, hx]; rfl
  have hd2 : Getenv environ "DNS_DEFAULT_ADDRESS".toList ≠ [] := by rw [hd]; exact hne
  have hmiss : mapIndex t0 h = none := (harvest_mandatory_none_of_ok environ t0 h0 h hh).2 hno
  obtain ⟨t1, ht1, hfill1⟩ := ensure_default environ "conntest.nintendowifi.net".toList
    "Mapping for conntest.nintendowifi.net not found and no default address set." t0 hd2
  obtain ⟨t2, ht2, hfill2⟩ := ensure_default environ "account.nintendo.net".toList
    "Mapping for account.nintendo.net not found and no default address set." t1 hd2
  have hk1 := ensure_keeps environ _ _ t0 t1 ht1
  have hk2 := ensure_keeps environ _ _ t1 t2 ht2
  refine ⟨t0, t2, h0, ?_, ?_, fun k v hkv => hk2 k v (hk1 k v hkv)⟩
  · rw [loadEnvVariables_of_harvest environ addressMap t0 h0, ht1]
    exact ht2
  · simp only [mandatoryHostnames, List.mem_cons, List.mem_singleton, List.not_mem_nil,
      or_false] at hh
    rcases hh with rfl | rfl
    · have := hfill1 hmiss
      rw [hd] at this
      exact hk2 _ _ this
    · have hmiss1 : mapIndex t1 "account.nintendo.net".toList = none := by
        cases hc : mapIndex t0 "conntest.nintendowifi.net".toList with
        | some w =>
          rw [ensure_of_some environ _ _ t0 w hc] at ht1
          cases ht1
          exact hmiss
        | none =>
          rw [ensure_of_none environ _ _ t0 hc, if_neg hd2] at ht1
          cases ht1
          rw [mapIndex_assign, if_neg (by decide)]
          exact hmiss
      have := hfill2 hmiss1
      rw [hd] at this
      exact this

/-- Claim C8, evaluated at a failing input.  In the environment
`DNS_MAP_example.net`, `DNS_DEFAULT_ADDRESS=10.0.0.9` no mandatory hostname
has a variable `DNS_MAP_<h>` and the default address is the non-empty
`10.0.0.9`, yet the load does not succeed: the loop panics on `parts[1]`
before either mapping check is reached, so no table maps a mandatory
hostname to the default. -/
theorem default_fill_panic :
    (∀ h ∈ mandatoryHostnames,
      ∀ e ∈ ["DNS_MAP_example.net".toList, "DNS_DEFAULT_ADDRESS=10.0.0.9".toList],
        envKey e ≠ dnsMapKey h) ∧
    LookupEnv ["DNS_MAP_example.net".toList, "DNS_DEFAULT_ADDRESS=10.0.0.9".toList]
      "DNS_DEFAULT_ADDRESS".toList = some "10.0.0.9".toList ∧
    loadEnvVariables ["DNS_MAP_example.net".toList, "DNS_DEFAULT_ADDRESS=10.0.0.9".toList]
      addressMap = .panic "index out of range [1] with length 1" := by
  refine ⟨by decide, by decide, by decide⟩

/-- Every dotted quad of octets is a text without `=`. -/
theorem dottedQuad_no_eq (a b c d : Nat) (ha : a < 256) (hb : b < 256) (hc : c < 256)
    (hd : d < 256) : '=' ∉ dottedQuad a b c d := by
  have key : ∀ n, n < 256 → '=' ∉ octetText n := by
    intro n hn
    interval_cases n <;> decide
  have ha2 := key a ha
  have hb2 := key b hb
  have hc2 := key c hc
  have hd2 := key d hd
  simp only [dottedQuad, List.mem_append, List.mem_cons, not_or]
  refine ⟨ha2, by decide, hb2, by decide, hc2, by decide, hd2⟩

/-- Claim C9.  For every environment and each mandatory hostname `h`: when
`DNS_MAP_<h>=y` is the setting of that variable and `DNS_DEFAULT_ADDRESS` is
set to `x`, with `y` an address text (any text without `=`, as every dotted
quad is), every table the load returns resolves `h` to `y`, hence not to `x`
when `x` differs from `y`: the default never overwrites the explicit mapping.
The load does return a table when `x` is non-empty and the loop of the loader
gets through the environment. -/
theorem explicit_wins (environ : List GoString) (h x y : GoString)
    (hh : h ∈ mandatoryHostnames)
    (hset : envEntry (dnsMapKey h) y ∈ environ)
    (honce : ∀ e ∈ environ, envKey e = dnsMapKey h → e = envEntry (dnsMapKey h) y)
    (hy : '=' ∉ y)
    (hx : LookupEnv environ "DNS_DEFAULT_ADDRESS".toList = some x) :
    (∀ t, loadEnvVariables environ addressMap = .ok t →
      mapIndex t h = some y ∧ (x ≠ y → mapIndex t h ≠ some x)) ∧
    ((∀ e ∈ environ, HasPrefix (envKey e) "DNS_MAP".toList = true → '=' ∈ e) → x ≠ [] →
      ∃ t, loadEnvVariables environ addressMap = .ok t) := by
  have hkey := dnsMapKey_no_eq h hh
  have hd : Getenv environ "DNS_DEFAULT_ADDRESS".toList = x := by rw [Getenv, hx]; rfl
  refine ⟨?_, ?_⟩
  · intro t ht
    obtain ⟨t0, h0⟩ := harvest_of_load environ addressMap t ht
    have h0y : mapIndex t0 h = some y := by
      apply harvest_value_of_ok environ h y _ addressMap t0 h0
      · right
        refine ⟨_, hset, (harvests_mandatory _ h hh).2 (envKey_envEntry _ _ hkey)⟩
      · intro e he hhv
        rw [honce e he ((harvests_mandatory e h hh).1 hhv)]
        exact envField_envEntry _ _ hkey hy
    rw [loadEnvVariables_of_harvest environ addressMap t0 h0] at ht
    cases h1 : loadEnvVariables.ensure environ "conntest.nintendowifi.net".toList
      "Mapping for conntest.nintendowifi.net not found and no default address set." t0 with
    | ok t1 =>
      rw [h1] at ht
      have hk1 := ensure_keeps environ _ _ t0 t1 h1
      have hk2 := ensure_keeps environ _ _ t1 t ht
      have hty : mapIndex t h = some y := hk2 _ _ (hk1 _ _ h0y)
      refine ⟨hty, fun hxy hcon => ?_⟩
      rw [hty] at hcon
      exact hxy (Option.some.inj hcon).symm
    | exit s msg => rw [h1] at ht; cases ht
    | panic r => rw [h1] at ht; cases ht
  · intro hsafe hne
    obtain ⟨t0, h0⟩ := harvest_ok_of_safe environ hsafe addressMap
    have hd2 : Getenv environ "DNS_DEFAULT_ADDRESS".toList ≠ [] := by rw [hd]; exact hne
    obtain ⟨t1, ht1, -⟩ := ensure_default environ "conntest.nintendowifi.net".toList
      "Mapping for conntest.nintendowifi.net not found and no default address set." t0 hd2
    obtain ⟨t2, ht2, -⟩ := ensure_default environ "account.nintendo.net".toList
      "Mapping for account.nintendo.net not found and no default address set." t1 hd2
    refine ⟨t2, ?_⟩
    rw [loadEnvVariables_of_harvest environ addressMap t0 h0, ht1]
    exact ht2

/-- Witness of C9: `DNS_MAP_account.nintendo.net=10.0.0.2` with the default
`10.0.0.9`, in an environment that also holds the string `FOO` without `=`:
the load returns a table, and it resolves `account.nintendo.net` to `10.0.0.2`
and not to `10.0.0.9`. -/
theorem explicit_wins_witness :
    ∃ t, loadEnvVariables ("FOO".toList :: explicitEnv (dottedQuad 10 0 0 2)) addressMap
        = .ok t ∧
      mapIndex t "account.nintendo.net".toList = some (dottedQuad 10 0 0 2) ∧
      mapIndex t "account.nintendo.net".toList ≠ some "10.0.0.9".toList :=
  ⟨_, rfl,
    ((explicit_wins ("FOO".toList :: explicitEnv (dottedQuad 10 0 0 2))
      "account.nintendo.net".toList "10.0.0.9".toList (dottedQuad 10 0 0 2) (by decide)
      (by decide) (by decide) (dottedQuad_no_eq 10 0 0 2 (by decide) (by decide) (by decide)
        (by decide)) (by decide)).1 _ rfl).1,
    ((explicit_wins ("FOO".toList :: explicitEnv (dottedQuad 10 0 0 2))
      "account.nintendo.net".toList "10.0.0.9".toList (dottedQuad 10 0 0 2) (by decide)
      (by decide) (by decide) (dottedQuad_no_eq 10 0 0 2 (by decide) (by decide) (by decide)
        (by decide)) (by decide)).1 _ rfl).2 (by decide)⟩

/-- A `DNS_MAP` value that contains `=` is stored cut at that `=`, whereas the
default address, read through `os.Getenv`, keeps the whole text after the
first `=`: with `DNS_MAP_account.nintendo.net=10.0.0.2=b` the table maps
`account.nintendo.net` to `10.0.0.2`. -/
theorem value_cut_at_equals :
    LookupEnv (explicitEnv "10.0.0.2=b".toList) (dnsMapKey "account.nintendo.net".toList)
      = some "10.0.0.2=b".toList ∧
    ∃ t, loadEnvVariables (explicitEnv "10.0.0.2=b".toList) addressMap = .ok t ∧
      mapIndex t "account.nintendo.net".toList = some "10.0.0.2".toList := by
  refine ⟨by decide, _, rfl, by decide⟩

/-! ## The query handler -/

theorem handleRequest_hit (parseIPv6 : GoString → IP) (m : StringMap) (r : Msg) (q : Question)
    (qs : List Question) (address : GoString) (hq : r.Question = q :: qs)
    (hhit : mapIndex m q.Name = some address) :
    handleRequest parseIPv6 m r =
      .ok [{ SetReply Msg.zero r with
              Answer := (SetReply Msg.zero r).Answer ++
                [RR.A { Name := q.Name, Rrtype := TypeA, Class := ClassINET, Ttl := 300,
                        Rdlength := 0 }
                      (ParseIP parseIPv6 address)] }] := by
  simp only [handleRequest, hq, hhit]

theorem handleRequest_miss (parseIPv6 : GoString → IP) (m : StringMap) (r : Msg) (q : Question)
    (qs : List Question) (hq : r.Question = q :: qs) (hmiss : mapIndex m q.Name = none) :
    handleRequest parseIPv6 m r = .ok [] := by
  simp only [handleRequest, hq, hmiss]

theorem SetReply_zero (r : Msg) :
    (SetReply Msg.zero r).Id = r.Id ∧ (SetReply Msg.zero r).Response = true ∧
    (SetReply Msg.zero r).Question = r.Question.take 1 ∧ (SetReply Msg.zero r).Answer = [] := by
  unfold SetReply
  cases hq : r.Question with
  | nil => by_cases ho : r.Opcode = OpcodeQuery <;> simp [ho, Msg.zero]
  | cons q qs => by_cases ho : r.Opcode = OpcodeQuery <;> simp [ho, Msg.zero]

/-- Claim C2.  For every address table and every query with at least one
question whose first question name is not a key of the table, `handleRequest`
returns having passed no message to `WriteMsg`. -/
theorem silence_on_miss (parseIPv6 : GoString → IP) (m : StringMap) (r : Msg) (q : Question)
    (qs : List Question) (hq : r.Question = q :: qs) (hmiss : mapIndex m q.Name = none) :
    handleRequest parseIPv6 m r = .ok [] :=
  handleRequest_miss parseIPv6 m r q qs hq hmiss

/-- Witness of C2: the scenario table is silent on `unknown.example.`. -/
theorem silence_on_miss_witness :
    handleRequest (fun _ => []) scenarioTable
      (query 2 [{ Name := "unknown.example.".toList, Qtype := 1, Qclass := 1 }]) = .ok [] :=
  silence_on_miss (fun _ => []) scenarioTable
    (query 2 [{ Name := "unknown.example.".toList, Qtype := 1, Qclass := 1 }])
    { Name := "unknown.example.".toList, Qtype := 1, Qclass := 1 } [] rfl (by decide)

/-- Claim C3.  For every address table and every query with at least one
question whose first question name is a key of the table, `handleRequest`
writes exactly one response; it has the response bit set and its answer
section is exactly one record with NAME the queried name as received,
TYPE A (1), CLASS IN (1) and TTL 300. -/
theorem answer_shape (parseIPv6 : GoString → IP) (m : StringMap) (r : Msg) (q : Question)
    (qs : List Question) (hq : r.Question = q :: qs) (hkey : mapIndex m q.Name ≠ none) :
    ∃ response hdr ip, handleRequest parseIPv6 m r = .ok [response] ∧
      response.Response = true ∧ response.Answer = [RR.A hdr ip] ∧
      hdr.Name = q.Name ∧ hdr.Rrtype = 1 ∧ hdr.Class = 1 ∧ hdr.Ttl = 300 := by
  cases hhit : mapIndex m q.Name with
  | none => exact absurd hhit hkey
  | some address =>
    obtain ⟨-, h2, -, h4⟩ := SetReply_zero r
    refine ⟨_, RR_Header.mk q.Name TypeA ClassINET 300 0, ParseIP parseIPv6 address,
      handleRequest_hit parseIPv6 m r q qs address hq hhit, h2, ?_, rfl, rfl, rfl, rfl⟩
    simp only [h4, List.nil_append]

/-- Witness of C3: the scenario table answers its own key. -/
theorem answer_shape_witness :
    ∃ response hdr ip,
      handleRequest (fun _ => []) scenarioTable
        (query 3 [{ Name := "account.nintendo.net".toList, Qtype := 1, Qclass := 1 }])
        = .ok [response] ∧
      response.Response = true ∧ response.Answer = [RR.A hdr ip] ∧
      hdr.Name = "account.nintendo.net".toList ∧ hdr.Rrtype = 1 ∧ hdr.Class = 1 ∧
      hdr.Ttl = 300 :=
  answer_shape (fun _ => []) scenarioTable
    (query 3 [{ Name := "account.nintendo.net".toList, Qtype := 1, Qclass := 1 }])
    { Name := "account.nintendo.net".toList, Qtype := 1, Qclass := 1 } [] rfl (by decide)

/-- Claim C4, as amended.  For every address table and every query, each
response `handleRequest` writes carries the id of the request, and its
question section is the FIRST question of the request alone; so it equals the
question section of the request whenever the request has exactly one question. -/
theorem echo_first_question (parseIPv6 : GoString → IP) (m : StringMap) (r : Msg)
    (responses : List Msg) (response : Msg)
    (hrun : handleRequest parseIPv6 m r = .ok responses) (hmem : response ∈ responses) :
    response.Id = r.Id ∧ response.Question = r.Question.take 1 ∧
      (r.Question.length = 1 → response.Question = r.Question) := by
  have key : response.Id = r.Id ∧ response.Question = r.Question.take 1 := by
    cases hq : r.Question with
    | nil => simp [handleRequest, hq] at hrun
    | cons q qs =>
      cases hhit : mapIndex m q.Name with
      | none =>
        rw [handleRequest_miss parseIPv6 m r q qs hq hhit] at hrun
        cases hrun
        cases hmem
      | some address =>
        rw [handleRequest_hit parseIPv6 m r q qs address hq hhit] at hrun
        cases hrun
        obtain ⟨h1, -, h3, -⟩ := SetReply_zero r
        rw [List.mem_singleton] at hmem
        subst hmem
        rw [hq] at h3
        exact ⟨h1, h3⟩
  refine ⟨key.1, key.2, fun hlen => ?_⟩
  rw [key.2, ← hlen, List.take_length]

/-- Witness of C4 (amended): a one-question query for a key of the scenario
table is echoed with its id 4. -/
theorem echo_first_question_witness :
    ∃ response,
      handleRequest (fun _ => []) scenarioTable
        (query 4 [{ Name := "account.nintendo.net".toList, Qtype := 1, Qclass := 1 }])
        = .ok [response] ∧
      response.Id = 4 ∧
      response.Question = [{ Name := "account.nintendo.net".toList, Qtype := 1, Qclass := 1 }] :=
  ⟨_, rfl,
    (echo_first_question (fun _ => []) scenarioTable
      (query 4 [{ Name := "account.nintendo.net".toList, Qtype := 1, Qclass := 1 }])
      _ _ rfl (List.mem_singleton_self _)).1,
    (echo_first_question (fun _ => []) scenarioTable
      (query 4 [{ Name := "account.nintendo.net".toList, Qtype := 1, Qclass := 1 }])
      _ _ rfl (List.mem_singleton_self _)).2.2 rfl⟩

/-- Counterexample to C4 as stated: a query with two questions whose first name
is a key of the table gets a response whose question section holds the first
question only, so it differs from the question section of the request. -/
theorem echo_counterexample :
    ∃ response,
      handleRequest (fun _ => []) scenarioTable
        (query 5 [{ Name := "account.nintendo.net".toList, Qtype := 1, Qclass := 1 },
                  { Name := "conntest.nintendowifi.net".toList, Qtype := 1, Qclass := 1 }])
        = .ok [response] ∧
      response.Question = [{ Name := "account.nintendo.net".toList, Qtype := 1, Qclass := 1 }] ∧
      response.Question ≠
        (query 5 [{ Name := "account.nintendo.net".toList, Qtype := 1, Qclass := 1 },
                  { Name := "conntest.nintendowifi.net".toList, Qtype := 1, Qclass := 1 }]).Question :=
  ⟨_, rfl, rfl, by decide⟩

/-- Claim C5.  For every address table and any two queries that differ only in
the QTYPE and QCLASS of their first question, `handleRequest` writes the same
number of responses (none or one) with equal answer sections, each a single A
record; and a QTYPE=AAAA query for a mapped name gets one A record. -/
theorem type_agnostic (parseIPv6 : GoString → IP) (m : StringMap) (r : Msg) (q : Question)
    (qs : List Question) (qtype qclass : Nat) (hq : r.Question = q :: qs) :
    (∃ answers : List (List RR),
      (∃ rs, handleRequest parseIPv6 m r = .ok rs ∧ rs.map Msg.Answer = answers) ∧
      (∃ rs, handleRequest parseIPv6 m
          { r with Question := { q with Qtype := qtype, Qclass := qclass } :: qs } = .ok rs ∧
        rs.map Msg.Answer = answers) ∧
      (answers = [] ∨ ∃ hdr ip, answers = [[RR.A hdr ip]] ∧ hdr.Rrtype = TypeA)) ∧
    (mapIndex m q.Name ≠ none →
      ∃ response hdr ip,
        handleRequest parseIPv6 m { r with Question := { q with Qtype := TypeAAAA } :: qs }
          = .ok [response] ∧
        response.Answer = [RR.A hdr ip] ∧ hdr.Rrtype = TypeA) := by
  cases hhit : mapIndex m q.Name with
  | none =>
    refine ⟨⟨[], ⟨[], handleRequest_miss parseIPv6 m r q qs hq hhit, rfl⟩,
      ⟨[], handleRequest_miss parseIPv6 m _ _ qs rfl hhit, rfl⟩, Or.inl rfl⟩, ?_⟩
    intro h
    exact absurd rfl h
  | some address =>
    have h4 : ∀ r : Msg, (SetReply Msg.zero r).Answer = [] := fun r => (SetReply_zero r).2.2.2
    refine ⟨⟨[[RR.A (RR_Header.mk q.Name TypeA ClassINET 300 0) (ParseIP parseIPv6 address)]],
      ⟨_, handleRequest_hit parseIPv6 m r q qs address hq hhit, ?_⟩,
      ⟨_, handleRequest_hit parseIPv6 m _ _ qs address rfl hhit, ?_⟩,
      Or.inr ⟨_, _, rfl, rfl⟩⟩, ?_⟩
    · simp only [List.map_cons, List.map_nil, h4, List.nil_append]
    · simp only [List.map_cons, List.map_nil, h4, List.nil_append]
    · intro _
      refine ⟨_, RR_Header.mk q.Name TypeA ClassINET 300 0, ParseIP parseIPv6 address,
        handleRequest_hit parseIPv6 m _ _ qs address rfl hhit, ?_, rfl⟩
      simp only [h4, List.nil_append]

/-- Witness of C5: an AAAA query for a key of the scenario table gets one A record. -/
theorem type_agnostic_witness :
    ∃ response hdr ip,
      handleRequest (fun _ => []) scenarioTable
        (query 6 [{ Name := "account.nintendo.net".toList, Qtype := TypeAAAA, Qclass := 1 }])
        = .ok [response] ∧
      response.Answer = [RR.A hdr ip] ∧ hdr.Rrtype = TypeA :=
  (type_agnostic (fun _ => []) scenarioTable
    (query 6 [{ Name := "account.nintendo.net".toList, Qtype := 1, Qclass := 1 }])
    { Name := "account.nintendo.net".toList, Qtype := 1, Qclass := 1 } [] 28 255 rfl).2
    (by decide)

/-! ## Reading a dotted quad -/

theorem octetText_ne_nil (a : Nat) (rest : GoString) : octetText a ++ rest ≠ [] := by
  unfold octetText
  split
  · simp
  · split <;> simp

/-- Reading the decimal text of an octet from a fresh field leaves the octet
as the running value, with a digit as the previous character. -/
theorem parseIPv4Fields_octet (a : Nat) (ha : a < 256) :
    ∃ (last : Char) (digLen : Nat), last ≠ '.' ∧
      ∀ (prev : Option Char) (rest : GoString) (pos : Nat) (fields : List Nat),
        parseIPv4Fields prev (octetText a ++ rest) 0 0 pos fields =
          parseIPv4Fields (some last) rest a digLen pos fields := by
  interval_cases a <;> exact ⟨_, _, by decide, fun _ _ _ _ => rfl⟩

theorem parseIPv4Fields_dot (last : Char) (hlast : last ≠ '.') (rest : GoString)
    (hrest : rest ≠ []) (val digLen pos : Nat) (fields : List Nat) (hpos : pos < 3) :
    parseIPv4Fields (some last) ('.' :: rest) val digLen pos fields =
      parseIPv4Fields (some '.') rest 0 0 (pos + 1) (fields.set pos (val % 256)) := by
  have h1 : ¬ ('0' ≤ '.' ∧ '.' ≤ '9') := by decide
  have h2 : ¬ (some last = none ∨ rest = [] ∨ some last = some '.') := by simp [hlast, hrest]
  have h3 : ¬ pos = 3 := by omega
  rw [parseIPv4Fields, if_neg h1, if_pos rfl, if_neg h2, if_neg h3]

theorem find_octet (a : Nat) (ha : a < 256) (rest : GoString) :
    (octetText a ++ '.' :: rest).find? (fun c => c = '.' ∨ c = ':' ∨ c = '%') = some '.' := by
  interval_cases a <;> rfl

theorem parseIPv4_dottedQuad (a b c d : Nat) (ha : a < 256) (hb : b < 256) (hc : c < 256)
    (hd : d < 256) : parseIPv4 (dottedQuad a b c d) = IPv4 a b c d := by
  obtain ⟨la, na, hla, hpa⟩ := parseIPv4Fields_octet a ha
  obtain ⟨lb, nb, hlb, hpb⟩ := parseIPv4Fields_octet b hb
  obtain ⟨lc, nc, hlc, hpc⟩ := parseIPv4Fields_octet c hc
  obtain ⟨ld, nd, -, hpd⟩ := parseIPv4Fields_octet d hd
  have hlast : octetText d = octetText d ++ [] := (List.append_nil _).symm
  have hfields : parseIPv4Fields none (dottedQuad a b c d) 0 0 0 [0, 0, 0, 0] =
      some [a, b, c, d] := by
    unfold dottedQuad
    rw [hpa, parseIPv4Fields_dot la hla _ (octetText_ne_nil b _) _ _ 0 _ (by omega),
      hpb, parseIPv4Fields_dot lb hlb _ (octetText_ne_nil c _) _ _ 1 _ (by omega),
      hpc, parseIPv4Fields_dot lc hlc _ (by rw [hlast]; exact octetText_ne_nil d _) _ _ 2 _
        (by omega),
      hlast, hpd, parseIPv4Fields]
    simp [Nat.mod_eq_of_lt ha, Nat.mod_eq_of_lt hb, Nat.mod_eq_of_lt hc, Nat.mod_eq_of_lt hd]
  rw [parseIPv4, hfields]

theorem ParseIP_dottedQuad (parseIPv6 : GoString → IP) (a b c d : Nat) (ha : a < 256)
    (hb : b < 256) (hc : c < 256) (hd : d < 256) :
    ParseIP parseIPv6 (dottedQuad a b c d) = IPv4 a b c d := by
  have hfind := find_octet a ha (octetText b ++ '.' :: (octetText c ++ '.' :: octetText d))
  unfold ParseIP
  rw [show dottedQuad a b c d =
    octetText a ++ '.' :: (octetText b ++ '.' :: (octetText c ++ '.' :: octetText d)) from rfl]
    at *
  rw [hfind]
  exact parseIPv4_dottedQuad a b c d ha hb hc hd

/-- Claim C6.  For every address table and every hit whose stored text is the
dotted quad `a.b.c.d` (octets below 256, decimal without leading zeros), the
single answer record carries the IPv4 address `a.b.c.d`: its RDATA on the wire
is the four octets `a b c d`, so RDLENGTH is 4. -/
theorem answer_address (parseIPv6 : GoString → IP) (m : StringMap) (r : Msg) (q : Question)
    (qs : List Question) (a b c d : Nat) (hq : r.Question = q :: qs)
    (ha : a < 256) (hb : b < 256) (hc : c < 256) (hd : d < 256)
    (hhit : mapIndex m q.Name = some (dottedQuad a b c d)) :
    ∃ response hdr ip rdata, handleRequest parseIPv6 m r = .ok [response] ∧
      response.Answer = [RR.A hdr ip] ∧ ip = IPv4 a b c d ∧ To4 ip = [a, b, c, d] ∧
      packDataA ip = some rdata ∧ rdata = [a, b, c, d] ∧ rdata.length = 4 := by
  refine ⟨_, RR_Header.mk q.Name TypeA ClassINET 300 0, IPv4 a b c d, [a, b, c, d],
    handleRequest_hit parseIPv6 m r q qs _ hq hhit, ?_, rfl, rfl, rfl, rfl, rfl⟩
  simp only [(SetReply_zero r).2.2.2, List.nil_append,
    ParseIP_dottedQuad parseIPv6 a b c d ha hb hc hd]

/-- Witness of C6: a table that maps `account.nintendo.net.` to `10.0.0.2`
answers with the octets 10, 0, 0, 2. -/
theorem answer_address_witness :
    ∃ response hdr ip rdata,
      handleRequest (fun _ => []) [("account.nintendo.net.".toList, dottedQuad 10 0 0 2)]
        (query 7 [{ Name := "account.nintendo.net.".toList, Qtype := 1, Qclass := 1 }])
        = .ok [response] ∧
      response.Answer = [RR.A hdr ip] ∧ ip = IPv4 10 0 0 2 ∧ To4 ip = [10, 0, 0, 2] ∧
      packDataA ip = some rdata ∧ rdata = [10, 0, 0, 2] ∧ rdata.length = 4 :=
  answer_address (fun _ => []) [("account.nintendo.net.".toList, dottedQuad 10 0 0 2)]
    (query 7 [{ Name := "account.nintendo.net.".toList, Qtype := 1, Qclass := 1 }])
    { Name := "account.nintendo.net.".toList, Qtype := 1, Qclass := 1 } [] 10 0 0 2 rfl
    (by decide) (by decide) (by decide) (by decide) (by decide)

/-- The text `10.0.0.2` is the dotted quad of the octets 10, 0, 0, 2. -/
theorem dottedQuad_example : dottedQuad 10 0 0 2 = "10.0.0.2".toList := by decide

/-! ## The hostname key form -/

/-- Claim C1, evaluated at its own witness.  With `UDP_PORT=5300`,
`DNS_MAP_conntest.nintendowifi.net=10.0.0.1` and
`DNS_MAP_account.nintendo.net=10.0.0.2`, `main` starts with a table that maps
`conntest.nintendowifi.net` (no trailing dot) to `10.0.0.1`, and
`handleRequest` on the query for `conntest.nintendowifi.net.` writes nothing. -/
theorem scenario_query_unanswered :
    ∃ run, main scenarioEnv = .ok run ∧
      mapIndex run.table "conntest.nintendowifi.net".toList = some "10.0.0.1".toList ∧
      ∀ parseIPv6 : GoString → IP,
        handleRequest parseIPv6 run.table
          (query 1 [{ Name := "conntest.nintendowifi.net.".toList, Qtype := TypeA,
                      Qclass := ClassINET }]) = .ok [] :=
  ⟨{ servers := [{ Port := 5300, Net := "udp" }], table := scenarioTable }, by decide,
    by decide, fun _ => rfl⟩

/-- Claim C10, evaluated at a failing input.  From the same environment the
load succeeds with a table whose keys are the variable suffixes verbatim: it
has no entry for `conntest.nintendowifi.net.` nor for `account.nintendo.net.`,
and maps `conntest.nintendowifi.net` and `account.nintendo.net`. -/
theorem scenario_keys_undotted :
    loadEnvVariables scenarioEnv addressMap = .ok scenarioTable ∧
      mapIndex scenarioTable "conntest.nintendowifi.net.".toList = none ∧
      mapIndex scenarioTable "account.nintendo.net.".toList = none ∧
      mapIndex scenarioTable "conntest.nintendowifi.net".toList = some "10.0.0.1".toList ∧
      mapIndex scenarioTable "account.nintendo.net".toList = some "10.0.0.2".toList :=
  ⟨by decide, by decide, by decide, by decide, by decide⟩

/-! ## The ports -/

theorem getPorts_eq (environ : List GoString) :
    getPorts environ =
      match portValue environ "UDP_PORT".toList with
      | none => .exit 1 "Invalid UDP port"
      | some udpPort =>
        match portValue environ "TCP_PORT".toList with
        | none => .exit 1 "Invalid TCP port"
        | some tcpPort =>
          if udpPort = 0 ∧ tcpPort = 0 then
            .exit 1 "No server port set. Set one of UDP_PORT or TCP_PORT"
          else if udpPort = tcpPort then .exit 1 "UDP and TCP ports cannot match"
          else .ok (udpPort, tcpPort) := by
  unfold getPorts portValue
  cases LookupEnv environ "UDP_PORT".toList with
  | none =>
    cases LookupEnv environ "TCP_PORT".toList with
    | none => rfl
    | some t =>
      dsimp only
      cases Atoi t <;> rfl
  | some u =>
    dsimp only
    cases Atoi u with
    | none => rfl
    | some n =>
      cases LookupEnv environ "TCP_PORT".toList with
      | none => rfl
      | some t =>
        dsimp only
        cases Atoi t <;> rfl

theorem getPorts_ok_iff (environ : List GoString) (udp tcp : Int) :
    getPorts environ = .ok (udp, tcp) ↔
      portValue environ "UDP_PORT".toList = some udp ∧
      portValue environ "TCP_PORT".toList = some tcp ∧ ¬ (udp = 0 ∧ tcp = 0) ∧ udp ≠ tcp := by
  rw [getPorts_eq]
  cases portValue environ "UDP_PORT".toList with
  | none => simp
  | some u =>
    cases portValue environ "TCP_PORT".toList with
    | none => simp
    | some t =>
      by_cases h0 : u = 0 ∧ t = 0
      · simp only [if_pos h0]
        constructor
        · intro h; cases h
        · rintro ⟨h1, h2, h3, -⟩
          cases h1; cases h2
          exact absurd h0 h3
      · by_cases h1 : u = t
        · simp only [if_neg h0, if_pos h1]
          constructor
          · intro h; cases h
          · rintro ⟨h2, h3, -, h4⟩
            cases h2; cases h3
            exact absurd h1 h4
        · simp only [if_neg h0, if_neg h1]
          constructor
          · intro h
            cases h
            exact ⟨rfl, rfl, h0, h1⟩
          · rintro ⟨h2, h3, -, -⟩
            cases h2; cases h3
            rfl

theorem Atoi_of_not_decimal (s : GoString) (h : isDecimalInteger s = false) : Atoi s = none := by
  have key : ∀ r : GoString, (!r.isEmpty && r.all Char.isDigit) = false →
      (r = [] ∨ ¬ r.all Char.isDigit = true) := by
    intro r hr
    cases r with
    | nil => exact Or.inl rfl
    | cons c cs =>
      right
      simpa using hr
  unfold isDecimalInteger at h
  unfold Atoi
  split at h
  · next r => simp only [if_pos (key r h)]
  · next r => simp only [if_pos (key r h)]
  · simp only [if_pos (key s h)]

theorem getPorts_exit_or_ok (environ : List GoString) :
    (∃ message, getPorts environ = .exit 1 message) ∨
      ∃ udp tcp, getPorts environ = .ok (udp, tcp) := by
  rw [getPorts_eq]
  cases portValue environ "UDP_PORT".toList with
  | none => exact Or.inl ⟨_, rfl⟩
  | some u =>
    cases portValue environ "TCP_PORT".toList with
    | none => exact Or.inl ⟨_, rfl⟩
    | some t =>
      by_cases h0 : u = 0 ∧ t = 0
      · exact Or.inl ⟨_, by simp only [if_pos h0]; rfl⟩
      · by_cases h1 : u = t
        · exact Or.inl ⟨_, by simp only [if_neg h0, if_pos h1]; rfl⟩
        · exact Or.inr ⟨u, t, by simp only [if_neg h0, if_neg h1]⟩

theorem portValue_of_lookup (environ : List GoString) (key v : GoString)
    (h : LookupEnv environ key = some v) : portValue environ key = Atoi v := by
  simp only [portValue, h]

/-- Claim C11.  For every environment, `getPorts` ends in `os.Exit(1)` and
returns no port pair whenever (i) `UDP_PORT` or `TCP_PORT` is present with a
value that is not a decimal integer, or (ii) neither variable yields a
non-zero port, or (iii) both are present and parse to the same value. -/
theorem port_abort_conditions (environ : List GoString)
    (h : (∃ v, LookupEnv environ "UDP_PORT".toList = some v ∧ isDecimalInteger v = false) ∨
      (∃ v, LookupEnv environ "TCP_PORT".toList = some v ∧ isDecimalInteger v = false) ∨
      ((∀ n, portValue environ "UDP_PORT".toList = some n → n = 0) ∧
        (∀ n, portValue environ "TCP_PORT".toList = some n → n = 0)) ∨
      (∃ u t n, LookupEnv environ "UDP_PORT".toList = some u ∧
        LookupEnv environ "TCP_PORT".toList = some t ∧ Atoi u = some n ∧ Atoi t = some n)) :
    (∃ status message, status ≠ 0 ∧ getPorts environ = .exit status message) ∧
      ∀ udp tcp, getPorts environ ≠ .ok (udp, tcp) := by
  have hno : ∀ udp tcp, getPorts environ ≠ .ok (udp, tcp) := by
    intro udp tcp hok
    obtain ⟨hu, ht, hz, hne⟩ := (getPorts_ok_iff environ udp tcp).1 hok
    rcases h with ⟨v, hv, hd⟩ | ⟨v, hv, hd⟩ | ⟨h1, h2⟩ | ⟨u, t, n, h1, h2, h3, h4⟩
    · rw [portValue_of_lookup environ _ v hv, Atoi_of_not_decimal v hd] at hu
      cases hu
    · rw [portValue_of_lookup environ _ v hv, Atoi_of_not_decimal v hd] at ht
      cases ht
    · exact hz ⟨h1 udp hu, h2 tcp ht⟩
    · rw [portValue_of_lookup environ _ u h1, h3] at hu
      rw [portValue_of_lookup environ _ t h2, h4] at ht
      cases hu
      cases ht
      exact hne rfl
  refine ⟨?_, hno⟩
  rcases getPorts_exit_or_ok environ with ⟨message, hm⟩ | ⟨udp, tcp, hok⟩
  · exact ⟨1, message, by decide, hm⟩
  · exact absurd hok (hno udp tcp)

/-- Witness of C11: `UDP_PORT=53 TCP_PORT=53` aborts. -/
theorem port_abort_conditions_witness :
    (∃ status message, status ≠ 0 ∧
      getPorts ["UDP_PORT=53".toList, "TCP_PORT=53".toList] = .exit status message) ∧
    ∀ udp tcp, getPorts ["UDP_PORT=53".toList, "TCP_PORT=53".toList] ≠ .ok (udp, tcp) :=
  port_abort_conditions ["UDP_PORT=53".toList, "TCP_PORT=53".toList]
    (Or.inr (Or.inr (Or.inr ⟨"53".toList, "53".toList, 53, by decide, by decide, by decide,
      by decide⟩)))

/-- Claim C12.  For every environment on which `getPorts` returns the pair
`(udp, tcp)`, the two ports are not both zero, and when both are non-zero
they differ. -/
theorem port_invariant (environ : List GoString) (udp tcp : Int)
    (h : getPorts environ = .ok (udp, tcp)) :
    ¬ (udp = 0 ∧ tcp = 0) ∧ (udp ≠ 0 → tcp ≠ 0 → udp ≠ tcp) := by
  obtain ⟨-, -, hz, hne⟩ := (getPorts_ok_iff environ udp tcp).1 h
  exact ⟨hz, fun _ _ => hne⟩

/-- Witness of C12: `UDP_PORT=5300 TCP_PORT=5301` returns the pair (5300, 5301). -/
theorem port_invariant_witness :
    getPorts ["UDP_PORT=5300".toList, "TCP_PORT=5301".toList] = .ok (5300, 5301) ∧
    ¬ ((5300 : Int) = 0 ∧ (5301 : Int) = 0) ∧
    ((5300 : Int) ≠ 0 → (5301 : Int) ≠ 0 → (5300 : Int) ≠ 5301) :=
  ⟨by decide, port_invariant ["UDP_PORT=5300".toList, "TCP_PORT=5301".toList] 5300 5301
    (by decide)⟩

theorem portValue_absent (environ : List GoString) (key : GoString)
    (h : LookupEnv environ key = none) : portValue environ key = some 0 := by
  simp only [portValue, h]

/-- Claim C13, as amended.  For every environment in which `UDP_PORT`
(respectively `TCP_PORT`) is absent, `getPorts` does not fail on that
variable and takes that port to be 0: a pair it returns has 0 in that place,
and it returns `(0, tcp)` (respectively `(udp, 0)`) when the other variable
yields a non-zero port.  A variable present with the empty string as value
makes `getPorts` exit with status 1 (`Invalid UDP port` for `UDP_PORT`). -/
theorem absent_port_zero (environ : List GoString) :
    (LookupEnv environ "UDP_PORT".toList = none →
      getPorts environ ≠ .exit 1 "Invalid UDP port" ∧
      (∀ udp tcp, getPorts environ = .ok (udp, tcp) → udp = 0) ∧
      (∀ tcp, portValue environ "TCP_PORT".toList = some tcp → tcp ≠ 0 →
        getPorts environ = .ok (0, tcp))) ∧
    (LookupEnv environ "TCP_PORT".toList = none →
      getPorts environ ≠ .exit 1 "Invalid TCP port" ∧
      (∀ udp tcp, getPorts environ = .ok (udp, tcp) → tcp = 0) ∧
      (∀ udp, portValue environ "UDP_PORT".toList = some udp → udp ≠ 0 →
        getPorts environ = .ok (udp, 0))) ∧
    (LookupEnv environ "UDP_PORT".toList = some [] →
      getPorts environ = .exit 1 "Invalid UDP port") ∧
    (LookupEnv environ "TCP_PORT".toList = some [] →
      ∃ message, getPorts environ = .exit 1 message) := by
  refine ⟨?_, ?_, ?_, ?_⟩
  · intro habs
    have hu := portValue_absent environ _ habs
    refine ⟨?_, ?_, ?_⟩
    · rw [getPorts_eq, hu]
      cases portValue environ "TCP_PORT".toList with
      | none => decide
      | some t =>
        dsimp only
        split_ifs
        · decide
        · decide
        · intro h; cases h
    · intro udp tcp hok
      have := ((getPorts_ok_iff environ udp tcp).1 hok).1
      rw [hu] at this
      cases this
      rfl
    · intro tcp ht hne
      exact (getPorts_ok_iff environ 0 tcp).2
        ⟨hu, ht, fun h => hne h.2, fun h => hne h.symm⟩
  · intro habs
    have ht := portValue_absent environ _ habs
    refine ⟨?_, ?_, ?_⟩
    · rw [getPorts_eq, ht]
      cases portValue environ "UDP_PORT".toList with
      | none => decide
      | some u =>
        dsimp only
        split_ifs
        · decide
        · decide
        · intro h; cases h
    · intro udp tcp hok
      have := ((getPorts_ok_iff environ udp tcp).1 hok).2.1
      rw [ht] at this
      cases this
      rfl
    · intro udp hu hne
      exact (getPorts_ok_iff environ udp 0).2 ⟨hu, ht, fun h => hne h.1, hne⟩
  · intro hempty
    have hu : portValue environ "UDP_PORT".toList = none := by
      rw [portValue_of_lookup environ _ [] hempty]
      rfl
    rw [getPorts_eq, hu]
  · intro hempty
    have ht : portValue environ "TCP_PORT".toList = none := by
      rw [portValue_of_lookup environ _ [] hempty]
      rfl
    rw [getPorts_eq, ht]
    cases portValue environ "UDP_PORT".toList with
    | none => exact ⟨_, rfl⟩
    | some u => exact ⟨_, rfl⟩

/-- Witness of C13 (amended): with `UDP_PORT` absent and `TCP_PORT=5301`,
`getPorts` returns (0, 5301). -/
theorem absent_port_zero_witness : getPorts ["TCP_PORT=5301".toList] = .ok (0, 5301) :=
  ((absent_port_zero ["TCP_PORT=5301".toList]).1 (by decide)).2.2 5301 (by decide) (by decide)

/-- Counterexample to C13 as stated: with `UDP_PORT=` (present, empty) and
`TCP_PORT=5301`, `getPorts` fails on parsing `UDP_PORT` and returns no pair. -/
theorem empty_port_counterexample :
    LookupEnv ["UDP_PORT=".toList, "TCP_PORT=5301".toList] "UDP_PORT".toList = some [] ∧
    getPorts ["UDP_PORT=".toList, "TCP_PORT=5301".toList] = .exit 1 "Invalid UDP port" ∧
    getPorts ["UDP_PORT=".toList, "TCP_PORT=5301".toList] ≠ .ok (0, 5301) := by
  refine ⟨by decide, by decide, by decide⟩

theorem Atoi_range (s : GoString) (n : Int) (h : Atoi s = some n) :
    -(2 ^ 63 : Int) ≤ n ∧ n < 2 ^ 63 := by
  unfold Atoi at h
  simp only at h
  split_ifs at h with h1 h2 h3 h4
  · cases h
    constructor <;> omega
  · cases h
    constructor <;> omega

/-- Claim C16, as amended.  For every environment on which `getPorts` returns
the pair `(udp, tcp)`, both ports lie in the range of Go `int`, from -2^63 to
2^63 - 1; no narrower port range is enforced. -/
theorem port_int_range (environ : List GoString) (udp tcp : Int)
    (h : getPorts environ = .ok (udp, tcp)) :
    (-(2 ^ 63 : Int) ≤ udp ∧ udp < 2 ^ 63) ∧ (-(2 ^ 63 : Int) ≤ tcp ∧ tcp < 2 ^ 63) := by
  have hv : ∀ key n, portValue environ key = some n → -(2 ^ 63 : Int) ≤ n ∧ n < 2 ^ 63 := by
    intro key n hn
    unfold portValue at hn
    cases hl : LookupEnv environ key with
    | none =>
      rw [hl] at hn
      cases hn
      constructor <;> norm_num
    | some v =>
      rw [hl] at hn
      exact Atoi_range v n hn
  obtain ⟨hu, ht, -, -⟩ := (getPorts_ok_iff environ udp tcp).1 h
  exact ⟨hv _ _ hu, hv _ _ ht⟩

/-- Witness of C16 (amended): the pair (5300, 5301) lies in the range of `int`. -/
theorem port_int_range_witness :
    (-(2 ^ 63 : Int) ≤ 5300 ∧ (5300 : Int) < 2 ^ 63) ∧
    (-(2 ^ 63 : Int) ≤ 5301 ∧ (5301 : Int) < 2 ^ 63) :=
  port_int_range ["UDP_PORT=5300".toList, "TCP_PORT=5301".toList] 5300 5301 (by decide)

/-- Counterexample to C16 as stated: `UDP_PORT=70000` and `UDP_PORT=-1` are
each returned by `getPorts` as the UDP port, outside 0..65535. -/
theorem port_range_counterexample :
    getPorts ["UDP_PORT=70000".toList] = .ok (70000, 0) ∧ ¬ ((70000 : Int) ≤ 65535) ∧
    getPorts ["UDP_PORT=-1".toList] = .ok (-1, 0) ∧ ¬ ((0 : Int) ≤ -1) := by
  refine ⟨by decide, by decide, by decide, by decide⟩

/-! ## Startup as a whole -/

theorem ensure_has (environ : List GoString) (h : GoString) (msg : String) (m t : StringMap)
    (ht : loadEnvVariables.ensure environ h msg m = .ok t) : mapIndex t h ≠ none := by
  cases hm : mapIndex m h with
  | some w =>
    rw [ensure_of_some environ h msg m w hm] at ht
    cases ht
    rw [hm]
    exact fun h2 => by cases h2
  | none =>
    rw [ensure_of_none environ h msg m hm] at ht
    split at ht
    · cases ht
    · cases ht
      rw [mapIndex_assign, if_pos rfl]
      exact fun h2 => by cases h2

/-- A table `loadEnvVariables` returns maps both mandatory hostnames. -/
theorem load_has_mandatory (environ : List GoString) (m t : StringMap)
    (h : loadEnvVariables environ m = .ok t) :
    mapIndex t "conntest.nintendowifi.net".toList ≠ none ∧
      mapIndex t "account.nintendo.net".toList ≠ none := by
  unfold loadEnvVariables at h
  cases h0 : loadEnvVariables.harvest environ m with
  | ok t0 =>
    rw [h0] at h
    cases h1 : loadEnvVariables.ensure environ "conntest.nintendowifi.net".toList
      "Mapping for conntest.nintendowifi.net not found and no default address set." t0 with
    | ok t1 =>
      have h' : loadEnvVariables.ensure environ "account.nintendo.net".toList
          "Mapping for account.nintendo.net not found and no default address set." t1 = .ok t := by
        simpa only [Outcome.bind, h1] using h
      refine ⟨?_, ensure_has environ _ _ t1 t h'⟩
      have hc := ensure_has environ _ _ t0 t1 h1
      cases hv : mapIndex t1 "conntest.nintendowifi.net".toList with
      | none => exact absurd hv hc
      | some w =>
        rw [ensure_keeps environ _ _ t1 t h' _ w hv]
        exact fun h2 => by cases h2
    | exit s msg => simp only [Outcome.bind, h1] at h; cases h
    | panic r => simp only [Outcome.bind, h1] at h; cases h
  | exit s msg => simp only [Outcome.bind, h0] at h; cases h
  | panic r => simp only [Outcome.bind, h0] at h; cases h

theorem checkAddressMapping_ok (t : StringMap)
    (hc : mapIndex t "conntest.nintendowifi.net".toList ≠ none)
    (ha : mapIndex t "account.nintendo.net".toList ≠ none) : checkAddressMapping t = .ok () := by
  unfold checkAddressMapping
  cases h1 : mapIndex t "conntest.nintendowifi.net".toList with
  | none => exact absurd h1 hc
  | some v =>
    cases h2 : mapIndex t "account.nintendo.net".toList with
    | none => exact absurd h2 ha
    | some w => rfl

theorem main_of_load (environ : List GoString) (t : StringMap)
    (h : loadEnvVariables environ addressMap = .ok t) :
    main environ =
      (getPorts environ).bind fun ports =>
        .ok { servers :=
                [{ Port := ports.1, Net := "udp" }] ++
                  (if ports.2 ≠ 0 then [{ Port := ports.2, Net := "tcp" }] else []),
              table := t } := by
  obtain ⟨hc, ha⟩ := load_has_mandatory environ addressMap t h
  unfold main
  rw [h]
  simp only [Outcome.bind, checkAddressMapping_ok t hc ha]

theorem getPorts_exit_message (environ : List GoString) (status : Nat) (message : String)
    (h : getPorts environ = .exit status message) :
    message = "Invalid UDP port" ∨ message = "Invalid TCP port" ∨
      message = "No server port set. Set one of UDP_PORT or TCP_PORT" ∨
      message = "UDP and TCP ports cannot match" := by
  rw [getPorts_eq] at h
  cases hu : portValue environ "UDP_PORT".toList with
  | none =>
    rw [hu] at h
    cases h
    exact Or.inl rfl
  | some u =>
    cases ht : portValue environ "TCP_PORT".toList with
    | none =>
      rw [hu, ht] at h
      cases h
      exact Or.inr (Or.inl rfl)
    | some v =>
      rw [hu, ht] at h
      dsimp only at h
      split_ifs at h
      · cases h
        exact Or.inr (Or.inr (Or.inl rfl))
      · cases h
        exact Or.inr (Or.inr (Or.inr rfl))

/-- Claim C20.  For every environment on which `loadEnvVariables` returns a
table, the table holds the keys `conntest.nintendowifi.net` and
`account.nintendo.net`, so `checkAddressMapping` on it returns, and `main`
never ends with either of the two failure messages of `checkAddressMapping`. -/
theorem recheck_redundant (environ : List GoString) (t : StringMap)
    (h : loadEnvVariables environ addressMap = .ok t) :
    mapIndex t "conntest.nintendowifi.net".toList ≠ none ∧
    mapIndex t "account.nintendo.net".toList ≠ none ∧
    checkAddressMapping t = .ok () ∧
    (∀ status, main environ ≠ .exit status "Mapping for conntest.nintendowifi.net not found") ∧
    (∀ status, main environ ≠ .exit status "Mapping for account.nintendo.net not found") := by
  obtain ⟨hc, ha⟩ := load_has_mandatory environ addressMap t h
  refine ⟨hc, ha, checkAddressMapping_ok t hc ha, ?_, ?_⟩
  · intro status hm
    rw [main_of_load environ t h] at hm
    rcases getPorts_exit_or_ok environ with ⟨message, hg⟩ | ⟨udp, tcp, hg⟩
    · have hmsg := getPorts_exit_message environ 1 message hg
      rw [hg] at hm
      simp only [Outcome.bind, Outcome.exit.injEq] at hm
      rw [hm.2] at hmsg
      revert hmsg
      decide
    · rw [hg] at hm
      cases hm
  · intro status hm
    rw [main_of_load environ t h] at hm
    rcases getPorts_exit_or_ok environ with ⟨message, hg⟩ | ⟨udp, tcp, hg⟩
    · have hmsg := getPorts_exit_message environ 1 message hg
      rw [hg] at hm
      simp only [Outcome.bind, Outcome.exit.injEq] at hm
      rw [hm.2] at hmsg
      revert hmsg
      decide
    · rw [hg] at hm
      cases hm

/-- Witness of C20: the scenario environment loads, and its table passes
`checkAddressMapping`. -/
theorem recheck_redundant_witness : checkAddressMapping scenarioTable = .ok () :=
  (recheck_redundant scenarioEnv scenarioTable (by decide)).2.2.1

/-- Claim C18, as amended.  Whenever `main` gets to launch its listeners, with
`(udp, tcp)` the pair `getPorts` returned, it launches a UDP listener on port
`udp` in every case (also when `udp` is 0), followed by a TCP listener on
port `tcp` exactly when `tcp` is non-zero. -/
theorem listeners_launched (environ : List GoString) (run : Running)
    (h : main environ = .ok run) :
    ∃ udp tcp, getPorts environ = .ok (udp, tcp) ∧
      run.servers =
        { Port := udp, Net := "udp" } ::
          (if tcp ≠ 0 then [{ Port := tcp, Net := "tcp" }] else []) := by
  cases hl : loadEnvVariables environ addressMap with
  | ok t =>
    rw [main_of_load environ t hl] at h
    rcases getPorts_exit_or_ok environ with ⟨message, hg⟩ | ⟨udp, tcp, hg⟩
    · rw [hg] at h
      cases h
    · rw [hg] at h
      refine ⟨udp, tcp, hg, ?_⟩
      simp only [Outcome.bind, Outcome.ok.injEq] at h
      rw [← h]
      rfl
  | exit s msg =>
    unfold main at h
    rw [hl] at h
    cases h
  | panic r =>
    unfold main at h
    rw [hl] at h
    cases h

/-- Witness of C18 (amended): the scenario environment launches the UDP
listener on port 5300 and no TCP listener. -/
theorem listeners_launched_witness :
    ∃ udp tcp, getPorts scenarioEnv = .ok (udp, tcp) ∧
      [({ Port := 5300, Net := "udp" } : Server)] =
        { Port := udp, Net := "udp" } ::
          (if tcp ≠ 0 then [{ Port := tcp, Net := "tcp" }] else []) :=
  listeners_launched scenarioEnv
    { servers := [{ Port := 5300, Net := "udp" }], table := scenarioTable } (by decide)

/-- Counterexample to C18 as stated: with only `TCP_PORT` set (`UDP_PORT`
absent, so `udp` is 0), `main` launches a UDP listener on port 0 besides the
TCP listener on port 5301. -/
theorem udp_listener_counterexample :
    LookupEnv tcpOnlyEnv "UDP_PORT".toList = none ∧
    getPorts tcpOnlyEnv = .ok (0, 5301) ∧
    main tcpOnlyEnv = .ok
      { servers := [{ Port := 0, Net := "udp" }, { Port := 5301, Net := "tcp" }],
        table := scenarioTable } := by
  refine ⟨by decide, by decide, by decide⟩

/-- When the loop of the loader returns and a mandatory hostname has neither
its variable nor a non-empty default, the loader exits with status 1 and one
of its two own messages. -/
theorem load_exit_of_missing (environ : List GoString) (t0 : StringMap)
    (h0 : loadEnvVariables.harvest environ addressMap = .ok t0)
    (hmiss : ∃ h ∈ mandatoryHostnames, (∀ e ∈ environ, envKey e ≠ dnsMapKey h) ∧
      ∀ x, LookupEnv environ "DNS_DEFAULT_ADDRESS".toList = some x → x = []) :
    loadEnvVariables environ addressMap = .exit 1
        "Mapping for conntest.nintendowifi.net not found and no default address set." ∨
      loadEnvVariables environ addressMap = .exit 1
        "Mapping for account.nintendo.net not found and no default address set." := by
  obtain ⟨h, hh, hno, hdef⟩ := hmiss
  have hd : Getenv environ "DNS_DEFAULT_ADDRESS".toList = [] :=
    (getenv_nil_iff environ _).2 hdef
  have hnone : mapIndex t0 h = none := (harvest_mandatory_none_of_ok environ t0 h0 h hh).2 hno
  rw [loadEnvVariables_of_harvest environ addressMap t0 h0]
  cases h1 : mapIndex t0 "conntest.nintendowifi.net".toList with
  | none =>
    left
    rw [ensure_of_none environ _ _ t0 h1, if_pos hd]
    rfl
  | some w =>
    right
    rw [ensure_of_some environ _ _ t0 w h1]
    simp only [Outcome.bind]
    cases h2 : mapIndex t0 "account.nintendo.net".toList with
    | none => rw [ensure_of_none environ _ _ t0 h2, if_pos hd]
    | some w2 =>
      simp only [mandatoryHostnames, List.mem_cons, List.mem_singleton, List.not_mem_nil,
        or_false] at hh
      rcases hh with rfl | rfl
      · rw [h1] at hnone; cases hnone
      · rw [h2] at hnone; cases hnone

/-- Claim C15, as amended.  Startup checks the mappings before the ports: for
every environment that lacks a mandatory-hostname mapping with no default
address, whatever port rule it violates besides, `main` never reports a port
error: every message it exits with is the missing-mapping error of
`loadEnvVariables`.  It does exit with that error, status 1, on every
environment in which each string whose key part begins with `DNS_MAP`
contains `=`. -/
theorem mapping_error_first (environ : List GoString)
    (hmiss : ∃ h ∈ mandatoryHostnames, (∀ e ∈ environ, envKey e ≠ dnsMapKey h) ∧
      ∀ x, LookupEnv environ "DNS_DEFAULT_ADDRESS".toList = some x → x = []) :
    (∀ status message, main environ = .exit status message →
      message = "Mapping for conntest.nintendowifi.net not found and no default address set." ∨
      message = "Mapping for account.nintendo.net not found and no default address set.") ∧
    ((∀ e ∈ environ, HasPrefix (envKey e) "DNS_MAP".toList = true → '=' ∈ e) →
      main environ = .exit 1
          "Mapping for conntest.nintendowifi.net not found and no default address set." ∨
        main environ = .exit 1
          "Mapping for account.nintendo.net not found and no default address set.") := by
  have hmain : ∀ t0, loadEnvVariables.harvest environ addressMap = .ok t0 →
      main environ = .exit 1
          "Mapping for conntest.nintendowifi.net not found and no default address set." ∨
        main environ = .exit 1
          "Mapping for account.nintendo.net not found and no default address set." := by
    intro t0 h0
    rcases load_exit_of_missing environ t0 h0 hmiss with h | h
    · left
      rw [main, h]
      rfl
    · right
      rw [main, h]
      rfl
  refine ⟨?_, ?_⟩
  · intro status message hm
    cases h0 : loadEnvVariables.harvest environ addressMap with
    | ok t0 =>
      rcases hmain t0 h0 with h | h
      · rw [h] at hm
        cases hm
        exact Or.inl rfl
      · rw [h] at hm
        cases hm
        exact Or.inr rfl
    | exit s msg => exact absurd h0 (harvest_not_exit environ addressMap s msg)
    | panic r =>
      have hl : loadEnvVariables environ addressMap = .panic r := by
        rw [loadEnvVariables, h0]
        rfl
      rw [main, hl] at hm
      cases hm
  · intro hsafe
    obtain ⟨t0, h0⟩ := harvest_ok_of_safe environ hsafe addressMap
    exact hmain t0 h0

/-- Witness of C15 (amended): with `UDP_PORT=abc`, the string `FOO` and no
mapping, `main` reports a missing mapping. -/
theorem mapping_error_first_witness :
    main ["UDP_PORT=abc".toList, "FOO".toList] = .exit 1
        "Mapping for conntest.nintendowifi.net not found and no default address set." ∨
      main ["UDP_PORT=abc".toList, "FOO".toList] = .exit 1
        "Mapping for account.nintendo.net not found and no default address set." :=
  (mapping_error_first ["UDP_PORT=abc".toList, "FOO".toList]
    ⟨"conntest.nintendowifi.net".toList, by decide, by decide, by decide⟩).2 (by decide)

/-- Counterexample to C15 as stated: `UDP_PORT=abc` with no mapping and no
default violates a port rule (`getPorts` alone reports `Invalid UDP port`),
yet `main` reports the missing mapping and not the port error. -/
theorem validation_order_counterexample :
    getPorts ["UDP_PORT=abc".toList] = .exit 1 "Invalid UDP port" ∧
    main ["UDP_PORT=abc".toList] = .exit 1
      "Mapping for conntest.nintendowifi.net not found and no default address set." ∧
    main ["UDP_PORT=abc".toList] ≠ .exit 1 "Invalid UDP port" := by
  refine ⟨by decide, by decide, by decide⟩

theorem ensure_ok_of (environ : List GoString) (h : GoString) (msg : String) (m : StringMap)
    (hor : mapIndex m h ≠ none ∨ Getenv environ "DNS_DEFAULT_ADDRESS".toList ≠ []) :
    ∃ t, loadEnvVariables.ensure environ h msg m = .ok t := by
  cases hm : mapIndex m h with
  | some w => exact ⟨m, ensure_of_some environ h msg m w hm⟩
  | none =>
    rcases hor with h1 | h1
    · exact absurd hm h1
    · obtain ⟨t, ht, -⟩ := ensure_default environ h msg m h1
      exact ⟨t, ht⟩

/-- Claim C14, as amended.  Address texts are not checked at startup: for every
environment (entries KEY=VALUE) in which each mandatory hostname has its
`DNS_MAP_<h>` variable or `DNS_DEFAULT_ADDRESS` is non-empty, `loadEnvVariables`
followed by `checkAddressMapping` succeeds, whatever the address texts are.
A stored text is parsed in `handleRequest` only: on a hit whose text
`net.ParseIP` rejects, the one answer record carries the nil address, which
is written with no RDATA octets. -/
theorem address_syntax_unchecked (environ : List GoString) (hwf : ∀ e ∈ environ, '=' ∈ e)
    (hmap : ∀ h ∈ mandatoryHostnames, (∃ e ∈ environ, envKey e = dnsMapKey h) ∨
      ∃ x, LookupEnv environ "DNS_DEFAULT_ADDRESS".toList = some x ∧ x ≠ []) :
    (∃ t, loadEnvVariables environ addressMap = .ok t ∧ checkAddressMapping t = .ok ()) ∧
    (∀ (parseIPv6 : GoString → IP) (m : StringMap) (r : Msg) (q : Question)
      (qs : List Question) (address : GoString),
      r.Question = q :: qs → mapIndex m q.Name = some address →
      ParseIP parseIPv6 address = [] →
      ∃ response hdr, handleRequest parseIPv6 m r = .ok [response] ∧
        response.Answer = [RR.A hdr []] ∧ packDataA [] = some []) := by
  refine ⟨?_, ?_⟩
  · obtain ⟨t0, h0⟩ := harvest_ok environ hwf addressMap
    have hsrc : ∀ h ∈ mandatoryHostnames,
        mapIndex t0 h ≠ none ∨ Getenv environ "DNS_DEFAULT_ADDRESS".toList ≠ [] := by
      intro h hh
      rcases hmap h hh with ⟨e, he, hk⟩ | ⟨x, hx, hne⟩
      · left
        intro hnone
        exact (harvest_mandatory_none environ hwf t0 h0 h hh).1 hnone e he hk
      · right
        intro hd
        exact hne ((getenv_nil_iff environ _).1 hd x hx)
    obtain ⟨t1, ht1⟩ := ensure_ok_of environ "conntest.nintendowifi.net".toList
      "Mapping for conntest.nintendowifi.net not found and no default address set." t0
      (hsrc _ (by simp [mandatoryHostnames]))
    have hacc : mapIndex t1 "account.nintendo.net".toList ≠ none ∨
        Getenv environ "DNS_DEFAULT_ADDRESS".toList ≠ [] := by
      rcases hsrc "account.nintendo.net".toList (by simp [mandatoryHostnames]) with h1 | h1
      · left
        cases hv : mapIndex t0 "account.nintendo.net".toList with
        | none => exact absurd hv h1
        | some w =>
          rw [ensure_keeps environ _ _ t0 t1 ht1 _ w hv]
          exact fun h2 => by cases h2
      · exact Or.inr h1
    obtain ⟨t2, ht2⟩ := ensure_ok_of environ "account.nintendo.net".toList
      "Mapping for account.nintendo.net not found and no default address set." t1 hacc
    have hload : loadEnvVariables environ addressMap = .ok t2 := by
      rw [loadEnvVariables_of_harvest environ addressMap t0 h0, ht1]
      exact ht2
    obtain ⟨hc, ha⟩ := load_has_mandatory environ addressMap t2 hload
    exact ⟨t2, hload, checkAddressMapping_ok t2 hc ha⟩
  · intro parseIPv6 m r q qs address hq hhit hparse
    refine ⟨_, RR_Header.mk q.Name TypeA ClassINET 300 0,
      handleRequest_hit parseIPv6 m r q qs address hq hhit, ?_, rfl⟩
    simp only [(SetReply_zero r).2.2.2, List.nil_append, hparse]

/-- Witness of C14 (amended): the environment with the mapping `not-an-ip`
loads and passes `checkAddressMapping`. -/
theorem address_syntax_unchecked_witness :
    ∃ t, loadEnvVariables badAddressEnv addressMap = .ok t ∧ checkAddressMapping t = .ok () :=
  (address_syntax_unchecked badAddressEnv (by decide) (by decide)).1

/-- Counterexample to C14 as stated: `DNS_MAP_conntest.nintendowifi.net` holds
`not-an-ip`, a text `net.ParseIP` rejects, and yet `loadEnvVariables` and
`checkAddressMapping` succeed, the table holds that text, and `main` goes on
to launch its listeners. -/
theorem unparseable_address_counterexample :
    (∀ parseIPv6 : GoString → IP, ParseIP parseIPv6 "not-an-ip".toList = []) ∧
    ∃ t, loadEnvVariables badAddressEnv addressMap = .ok t ∧
      checkAddressMapping t = .ok () ∧
      mapIndex t "conntest.nintendowifi.net".toList = some "not-an-ip".toList ∧
      main badAddressEnv = .ok { servers := [{ Port := 5300, Net := "udp" }], table := t } := by
  refine ⟨fun _ => rfl, _, rfl, by decide, by decide, by decide⟩

/-- Claim C17, evaluated at a failing input.  The variables `DNS_MAPX=1.2.3.4`
and `DNS_MAP=5.6.7.8`, whose names do not start with `DNS_MAP_`, each add an
entry to the table, under the whole variable name as key. -/
theorem loose_key_harvested :
    HasPrefix "DNS_MAPX".toList "DNS_MAP_".toList = false ∧
    HasPrefix "DNS_MAP".toList "DNS_MAP_".toList = false ∧
    ∃ t, loadEnvVariables looseKeyEnv addressMap = .ok t ∧
      mapIndex t "DNS_MAPX".toList = some "1.2.3.4".toList ∧
      mapIndex t "DNS_MAP".toList = some "5.6.7.8".toList := by
  refine ⟨by decide, by decide, _, rfl, by decide, by decide⟩

/-- Claim C19, evaluated at a failing input.  The environment string
`DNS_MAP_example.net` has no `=`: its key part starts with `DNS_MAP`, the split
at `=` yields one field only, and `loadEnvVariables` panics on `parts[1]`. -/
theorem loader_index_panic :
    HasPrefix (envKey "DNS_MAP_example.net".toList) "DNS_MAP".toList = true ∧
    (Split "DNS_MAP_example.net".toList '=').length = 1 ∧
    loadEnvVariables ["DNS_MAP_example.net".toList] addressMap
      = .panic "index out of range [1] with length 1" := by
  refine ⟨by decide, by decide, by decide⟩

end DNS
